import Mathlib

/-!
Verification development for `src/matlab/caffe/matcaffe.cpp`, the MATLAB MEX
bridge around the caffe library (`ani16/caffe_pp`).

Shallow embedding conventions:
* `float` payloads are never subject to arithmetic in the bridge (it only
  copies them), so blob / array elements are modelled by `Int` placeholders.
* The channel ids handed to `get_gradients` are MATLAB doubles on which the
  bridge does arithmetic (`(int)(d + 0.5)`), modelled by `ℚ` with an explicit
  truncation-toward-zero function.
* `mexErrMsgTxt` aborts the handler (longjmp back to MATLAB); `CHECK` /
  `CHECK_EQ` / `LOG(FATAL)` abort the process.  Both are modelled as
  `Except.error` with the message (for `CHECK` failures and undefined
  behaviour such as null dereference or out-of-bounds reads, a descriptive
  message is used).
* `caffe_copy(n, src, dst)` copies the first `n` elements of `src`; it is
  modelled by `List.take n`.  The CPU and GPU branches of every
  `switch (Caffe::mode())` perform the identical copy on different device
  memories, so the mode is not modelled.
* The wrapped library (`Net<float>` construction, `ForwardPrefilled`,
  `Backward`, `GetFeaturesPrefilled`, `CalcGradientsPrefilled`, `random()`)
  is out of repository scope; it is represented by function fields of
  `Net` / `Oracle` that the bridge calls but never looks into.
-/

namespace MatCaffe

/-- An engine tensor (`caffe::Blob<float>`): shape plus flat `data` and
`diff` buffers (row-major as stored by the engine; the bridge treats them
as flat sequences). -/
structure Blob where
  width : Nat
  height : Nat
  channels : Nat
  num : Nat
  data : List Int
  diff : List Int
deriving DecidableEq, Repr

/-- `Blob::count() = width*height*channels*num`. -/
def Blob.count (b : Blob) : Nat := b.width * b.height * b.channels * b.num

/-- A well-formed engine blob carries exactly `count` elements in each
buffer (guaranteed by the engine's allocation). -/
def Blob.WF (b : Blob) : Prop := b.data.length = b.count ∧ b.diff.length = b.count

instance : DecidablePred Blob.WF := fun b => by unfold Blob.WF; infer_instance

/-- The first four entries of `mxGetDimensions`: `(dims[0], dims[1],
dims[2], dims[3])`. -/
abbrev Dims4 := Nat × Nat × Nat × Nat

/-- A 4-D single-precision MATLAB numeric array (`mxSINGLE_CLASS`), as
created by `mxCreateNumericArray(4, dims, mxSINGLE_CLASS, mxREAL)`:
declared dimensions plus the flat (column-major, width fastest) element
buffer. -/
structure MxNum where
  dims : Dims4
  data : List Int
deriving DecidableEq, Repr

/-- An `mxArray` argument as the handlers see it. -/
inductive MxValue where
  /-- a MATLAB string (`mxArrayToString`) -/
  | str (s : String)
  /-- a single-precision numeric array (`mxIsSingle` holds) -/
  | num (a : MxNum)
  /-- a double-precision numeric array of `rows` × `cols` doubles
      (the shape read by `mxGetDimensions(..)[0]` and `[1]`) -/
  | dbl (rows cols : Nat) (ds : List ℚ)
  /-- a cell array; modelled as a column cell vector, so
      `mxGetDimensions(..)[0]` is the number of cells -/
  | cell (l : List MxValue)

/-- One entry of the struct array built by `do_get_weights`
(fields `weights` and `layer_names`, in that order). -/
structure WeightsEntry where
  weights : List MxNum
  layer_names : String
deriving DecidableEq, Repr

/-- One entry of the struct array built by `do_get_blobs`
(fields `diff`, `data`, `blob_names`). -/
structure BlobsEntry where
  diff : MxNum
  data : MxNum
  blob_names : String
deriving DecidableEq, Repr

/-- The wrapped `caffe::Net<float>` instance.  The engine operations the
bridge delegates to are opaque function fields; the bridge's own code
never inspects them.  In-place mutations the engine performs on the net's
blob vectors are represented by the functions returning the post-call
blob lists. -/
structure Net where
  /-- `net_->input_blobs()` -/
  input_blobs : List Blob
  /-- `net_->output_blobs()` (before `ForwardPrefilled` runs) -/
  output_blobs : List Blob
  /-- `net_->layers()` paired with `net_->layer_names()`: for each layer its
      name and its parameter blobs (`layers[i]->blobs()`) -/
  layers : List (String × List Blob)
  /-- `net_->blob_names()` paired with `net_->blobs()` -/
  named_blobs : List (String × Blob)
  /-- `net_->top_vecs()[0][0]->num()` -/
  batchSize : Nat
  /-- `net_->ForwardPrefilled()`: maps the filled input blobs to the output
      blobs produced by the engine -/
  forwardPrefilled : List Blob → List Blob
  /-- `net_->Backward()`: maps the output blobs with their filled diffs to
      the input blobs as left by the engine (their `diff` holds the result) -/
  backwardRun : List Blob → List Blob
  /-- `net_->GetFeaturesPrefilled(name, out)`: `none` models a nonzero
      return status, `some bs` the produced feature blobs -/
  getFeaturesPrefilled : String → List Blob → Option (List Blob)
  /-- `net_->CalcGradientsPrefilled(name, channels, out)`: `none` models a
      nonzero return status, `some bs` the produced per-batch gradient blobs -/
  calcGradientsPrefilled : String → List Int → List Blob → Option (List Blob)

/-- The bridge's own mutable state: the two file-static variables
`static shared_ptr<Net<float> > net_` and `static int init_key = -2`.
(The `Caffe::mode` / `Caffe::phase` / device globals live inside the
wrapped library, not in the bridge.) -/
structure BridgeState where
  net : Option Net
  init_key : Int

/-- Environment for the library calls `init` makes: the effect of
`new Net<float>(param_file)` followed by `CopyTrainedLayersFrom(model_file)`,
and the value the next `random()` call returns. -/
structure Oracle where
  loadNet : String → String → Net
  rand : Int

/-! ## `do_forward` (matcaffe.cpp lines 48–98) -/

/-- The per-input loop of `do_forward`: for each cell,
`CHECK(mxIsSingle(elem))`, then
`CHECK_EQ(mxGetNumberOfElements(elem), input_blobs[i]->count())`, then
`caffe_copy(count, data_ptr, mutable data)` which overwrites the blob's
data with the cell's flat element sequence. -/
def copyForwardInputs : List MxValue → List Blob → Except String (List Blob)
  | [], [] => .ok []
  | e :: es, b :: bs =>
    match e with
    | .num a =>
      if a.data.length ≠ b.count then
        .error "MatCaffe input size does not match the input size of the network"
      else
        match copyForwardInputs es bs with
        | .ok r => .ok ({ b with data := a.data } :: r)
        | .error m => .error m
    | _ => .error "MatCaffe require single-precision float point data"
  | _, _ => .error "input cell count does not match input blob count"

/-- `do_forward`: check the cell count against `input_blobs().size()`
(`CHECK_EQ`), fill the input blobs from the cells, run
`ForwardPrefilled`, and marshal each output blob into a fresh 4-D single
array of dims `[width, height, channels, num]` by
`caffe_copy(count, cpu_data, data_ptr)`. -/
def do_forward (net : Net) (bottom : MxValue) : Except String (List MxNum) :=
  match bottom with
  | .cell cells =>
    if cells.length ≠ net.input_blobs.length then
      .error "CHECK_EQ failed: mxGetDimensions(bottom)[0] == input_blobs.size()"
    else
      match copyForwardInputs cells net.input_blobs with
      | .error m => .error m
      | .ok filled =>
        .ok ((net.forwardPrefilled filled).map fun b =>
          ⟨(b.width, b.height, b.channels, b.num), b.data.take b.count⟩)
  | _ => .error "undefined behaviour: mxGetCell on a non-cell array"

/-! ## `do_backward` (lines 100–148) -/

/-- The per-output loop of `do_backward`: no type or size check is made;
`caffe_copy(output_blobs[i]->count(), data_ptr, mutable diff)` reads
`count` elements from the cell's buffer into the blob's diff. -/
def copyBackwardTops : List MxValue → List Blob → Except String (List Blob)
  | [], [] => .ok []
  | e :: es, b :: bs =>
    match e with
    | .num a =>
      match copyBackwardTops es bs with
      | .ok r => .ok ({ b with diff := a.data.take b.count } :: r)
      | .error m => .error m
    | _ => .error "undefined behaviour: mxGetPr on a non-numeric cell"
  | _, _ => .error "output cell count does not match output blob count"

/-- `do_backward`: check the cell count against `output_blobs().size()`
(`CHECK_EQ`), copy the top diffs in, run `Backward`, and marshal each
input blob's diff into a fresh `[width, height, channels, num]` single
array. -/
def do_backward (net : Net) (top_diff : MxValue) : Except String (List MxNum) :=
  match top_diff with
  | .cell cells =>
    if cells.length ≠ net.output_blobs.length then
      .error "CHECK_EQ failed: mxGetDimensions(top_diff)[0] == output_blobs.size()"
    else
      match copyBackwardTops cells net.output_blobs with
      | .error m => .error m
      | .ok filledTops =>
        .ok ((net.backwardRun filledTops).map fun b =>
          ⟨(b.width, b.height, b.channels, b.num), b.diff.take b.count⟩)
  | _ => .error "undefined behaviour: mxGetCell on a non-cell array"

/-! ## Channel-id conversion in `do_get_gradients` (lines 156–165) -/

/-- C truncation toward zero of a double, `(int)q`. -/
def cTrunc (q : ℚ) : Int := if 0 ≤ q then ⌊q⌋ else -⌊-q⌋

/-- The conversion loop over the `rows*cols` supplied doubles: each id `d`
with `d < 0` aborts with `mexErrMsgTxt`; otherwise
`(int)(d + 0.5)` is pushed onto `selected_channels_i`. -/
def convLoop : List ℚ → Except String (List Int)
  | [] => .ok []
  | d :: ds =>
    if d < 0 then .error "The channel ids must be greater than zero!"
    else
      match convLoop ds with
      | .ok r => .ok (cTrunc (d + 1/2) :: r)
      | .error m => .error m

/-- Conversion of the channel-id array: run the loop, then reject an empty
result (`selected_channels_i.size() < 1`). -/
def convertChannelIds (ds : List ℚ) : Except String (List Int) :=
  match convLoop ds with
  | .ok l =>
    if l.length < 1 then .error "Channel list must not be empty."
    else .ok l
  | .error m => .error m

/-! ## Input dimension checks shared by `do_get_gradients` (lines 171–180)
and `do_get_features` (lines 258–269) -/

/-- The four dimension checks on one input cell, in source order.  Note the
code compares `mxGetDimensions(elem)[0]` against the blob's *width* while
the message speaks of height, and `[1]` against the blob's *height* while
the message speaks of width. -/
def dimCheck (d : Dims4) (b : Blob) : Except String Unit :=
  if d.1 ≠ b.width then .error "The height of the input images is wrong!"
  else if d.2.1 ≠ b.height then .error "The width of the input images is wrong!"
  else if d.2.2.1 ≠ b.channels then .error "The channel size of the input images is wrong!"
  else if d.2.2.2 ≠ b.num then .error "The batch size of the input images is wrong!"
  else .ok ()

/-- The per-input loop of `do_get_features` / `do_get_gradients`: for each
cell, run the four dimension checks, then
`caffe_copy(input_blobs[i]->count(), data_ptr, mutable data)`. -/
def checkCopyInputs : List MxValue → List Blob → Except String (List Blob)
  | [], [] => .ok []
  | e :: es, b :: bs =>
    match e with
    | .num a =>
      match dimCheck a.dims b with
      | .error m => .error m
      | .ok _ =>
        match checkCopyInputs es bs with
        | .ok r => .ok ({ b with data := a.data.take b.count } :: r)
        | .error m => .error m
    | _ => .error "undefined behaviour: mxGetDimensions/mxGetPr on a non-numeric cell"
  | _, _ => .error "input cell count does not match input blob count"

/-! ## `do_get_features` (lines 250–316) -/

/-- `do_get_features`: null-net check first, then the cell-count check, the
per-input dimension checks and copies, `GetFeaturesPrefilled`, and the
marshaling of each produced blob into a `[width, height, channels, num]`
single array. -/
def do_get_features (net? : Option Net) (bottom layername : MxValue) :
    Except String (List MxNum) :=
  match net? with
  | none => .error "Initialize caffe first by calling matcaffe_init."
  | some net =>
    match layername with
    | .str layer_name =>
      match bottom with
      | .cell cells =>
        if cells.length ≠ net.input_blobs.length then
          .error "The input has to be a cell array usually containing a single height x width x channels x batch size image!"
        else
          match checkCopyInputs cells net.input_blobs with
          | .error m => .error m
          | .ok filled =>
            match net.getFeaturesPrefilled layer_name filled with
            | none => .error "Error while calculating. Probably a layer with that name does not exist."
            | some outs =>
              .ok (outs.map fun b =>
                ⟨(b.width, b.height, b.channels, b.num), b.data.take b.count⟩)
      | _ => .error "undefined behaviour: mxGetCell on a non-cell array"
    | _ => .error "undefined behaviour: mxArrayToString on a non-string"

/-! ## `do_get_gradients` (lines 150–247) -/

/-- The accumulation loop over the per-batch gradient blobs: with
`channels_left` channels still to account for, blob `b` contributes
`num_to_copy = min(b->count(), b->width()*b->height()*b->channels()*channels_left)`
elements of its diff, appended at the write pointer, and
`channels_left := max(0, channels_left - batch_size)` (natural
subtraction realises the `max` with 0).  Returns the concatenated data
and the final `data_copied` counter. -/
def gradAccum (batchSize : Nat) : Nat → List Blob → List Int × Nat
  | _, [] => ([], 0)
  | channels_left, b :: bs =>
    let num_to_copy :=
      min b.count (b.width * b.height * b.channels * channels_left)
    let rest := gradAccum batchSize (channels_left - batchSize) bs
    (b.diff.take num_to_copy ++ rest.1, num_to_copy + rest.2)

/-- `do_get_gradients`: null-net check, `mxArrayToString` of the layer
name, channel-id conversion (negative check inside the loop, emptiness
check after it), cell-count check, per-input dimension checks and copies,
`CalcGradientsPrefilled`, the accumulation loop (dimensions of the result
taken from the first gradient blob, fourth dimension the number of
selected channels), and the final
`CHECK_EQ(data_copied, w0*h0*c0*k)`.  The returned pair is the marshalled
array together with the list of temporary blobs the trailing cleanup loop
`delete`s (every non-null entry of `output_blobs`). -/
def do_get_gradients (net? : Option Net) (bottom layername channel_ids : MxValue) :
    Except String (MxNum × List Blob) :=
  match net? with
  | none => .error "Initialize caffe first by calling matcaffe_init."
  | some net =>
    match layername with
    | .str layer_name =>
      match channel_ids with
      | .dbl rows cols ds =>
        match convertChannelIds (ds.take (rows * cols)) with
        | .error m => .error m
        | .ok ids =>
        match bottom with
        | .cell cells =>
          if cells.length ≠ net.input_blobs.length then
            .error "The input has to be a cell array usually containing a single height x width x channels x batch size image!"
          else
            match checkCopyInputs cells net.input_blobs with
            | .error m => .error m
            | .ok filled =>
            let batch_size := net.batchSize
            match net.calcGradientsPrefilled layer_name ids filled with
            | none => .error "Error while calculating. Probably a layer with that name does not exist."
            | some output_blobs =>
              match output_blobs with
              | [] => .error "undefined behaviour: output_blobs[0] read on an empty blob vector"
              | b0 :: _ =>
                let acc := gradAccum batch_size ids.length output_blobs
                if acc.2 ≠ b0.width * b0.height * b0.channels * ids.length then
                  .error "CHECK_EQ failed: data_copied == w0*h0*c0*num_channels"
                else
                  .ok (⟨(b0.width, b0.height, b0.channels, ids.length), acc.1⟩,
                       output_blobs)
        | _ => .error "undefined behaviour: mxGetCell on a non-cell array"
      | _ => .error "undefined behaviour: mxGetPr on a non-double channel array"
    | _ => .error "undefined behaviour: mxArrayToString on a non-string"

/-! ## `do_get_weights` (lines 378–455) -/

/-- Step 1 of `do_get_weights`: count the entries, skipping layers with no
parameter blobs and incrementing only when the layer name differs from
`prev_layer_name` (which persists across skipped layers). -/
def countWeightLayers : String → List (String × List Blob) → Nat
  | _, [] => 0
  | prev, l :: ls =>
    if l.2.isEmpty then countWeightLayers prev ls
    else if l.1 ≠ prev then countWeightLayers l.1 ls + 1
    else countWeightLayers prev ls

/-- Step 3 of `do_get_weights`: `mx_layer_cells` is declared `NULL` each
iteration and only allocated when the layer name differs from
`prev_layer_name`; when a parameter-bearing layer repeats the previous
name, the inner loop calls `mxSetCell(NULL, j, ...)`, which is undefined
behaviour (modelled as an error).  Otherwise each parameter blob is
marshalled into a `[width, height, channels, num]` single array holding
its data. -/
def weightsLoop : String → List (String × List Blob) → Except String (List WeightsEntry)
  | _, [] => .ok []
  | prev, l :: ls =>
    if l.2.isEmpty then weightsLoop prev ls
    else if l.1 ≠ prev then
      match weightsLoop l.1 ls with
      | .ok rest =>
        .ok (⟨l.2.map fun b =>
                ⟨(b.width, b.height, b.channels, b.num), b.data.take b.count⟩,
              l.1⟩ :: rest)
      | .error m => .error m
    else .error "undefined behaviour: mxSetCell on the NULL mx_layer_cells"

/-- `do_get_weights` over the net's layer list (`prev_layer_name` starts
as the empty string). -/
def do_get_weights (net : Net) : Except String (List WeightsEntry) :=
  weightsLoop "" net.layers

/-! ## `do_get_blobs` (lines 318–376) -/

/-- `do_get_blobs`: one struct entry per named blob, fields `diff`, `data`
and `blob_names`, each array of dims `[width, height, channels, num]`
filled by `caffe_copy(count, ...)`. -/
def do_get_blobs (net : Net) : List BlobsEntry :=
  net.named_blobs.map fun nb =>
    ⟨⟨(nb.2.width, nb.2.height, nb.2.channels, nb.2.num), nb.2.diff.take nb.2.count⟩,
     ⟨(nb.2.width, nb.2.height, nb.2.channels, nb.2.num), nb.2.data.take nb.2.count⟩,
     nb.1⟩

/-! ## The command handlers and the dispatch table (lines 458–656) -/

/-- The sixteen commands with a registered handler function. -/
inductive Cmd where
  | forward | backward | get_gradients | get_features | init
  | is_initialized | set_mode_cpu | set_mode_gpu | set_phase_train
  | set_phase_test | set_device | get_weights | get_blobs
  | get_init_key | reset | read_mean
deriving DecidableEq, Repr

/-- The value a handler leaves in `plhs[0]` (`.none` when the handler
assigns no output; `.lib tag` for output produced purely by the wrapped
library and the file system, as in `read_mean`). -/
inductive Out where
  | none
  | scalar (x : Int)
  | cells (l : List MxNum)
  | grad (g : MxNum)
  | weights (w : List WeightsEntry)
  | blobs (l : List BlobsEntry)
  | lib (tag : String)
deriving DecidableEq, Repr

/-- Result of one handler invocation: the bridge state afterwards, the
output or abort message, and the engine tensor objects the handler
`delete`d. -/
structure CmdResult where
  state : BridgeState
  out : Except String Out
  freed : List Blob

/-- One handler invocation.  `args` are `prhs+1 .. prhs+nrhs-1`, so the
`nrhs != k` guards compare `args.length` with `k`.  Handlers that abort
leave the bridge state unchanged (the in-place writes some of them have
already made into the engine-owned blob buffers are engine state and are
not tracked across commands, as no analysed property observes them). -/
def runCmd (o : Oracle) (s : BridgeState) (c : Cmd) (args : List MxValue) : CmdResult :=
  match c with
  | .forward =>
    match args with
    | [bottom] =>
      match s.net with
      | Option.none => ⟨s, .error "undefined behaviour: null net_ dereference", []⟩
      | some n =>
        match do_forward n bottom with
        | .ok l => ⟨s, .ok (.cells l), []⟩
        | .error e => ⟨s, .error e, []⟩
    | _ => ⟨s, .error "Wrong number of arguments", []⟩
  | .backward =>
    match args with
    | [top_diff] =>
      match s.net with
      | Option.none => ⟨s, .error "undefined behaviour: null net_ dereference", []⟩
      | some n =>
        match do_backward n top_diff with
        | .ok l => ⟨s, .ok (.cells l), []⟩
        | .error e => ⟨s, .error e, []⟩
    | _ => ⟨s, .error "Wrong number of arguments", []⟩
  | .get_gradients =>
    match args with
    | [bottom, layername, channel_ids] =>
      match do_get_gradients s.net bottom layername channel_ids with
      | .ok r => ⟨s, .ok (.grad r.1), r.2⟩
      | .error e => ⟨s, .error e, []⟩
    | _ => ⟨s, .error "Wrong number of arguments", []⟩
  | .get_features =>
    match args with
    | [bottom, layername] =>
      match do_get_features s.net bottom layername with
      | .ok l => ⟨s, .ok (.cells l), []⟩
      | .error e => ⟨s, .error e, []⟩
    | _ => ⟨s, .error "Wrong number of arguments", []⟩
  | .init =>
    match args with
    | [param_file, model_file] =>
      match param_file, model_file with
      | .str p, .str m =>
        ⟨⟨some (o.loadNet p m), o.rand⟩, .ok (.scalar o.rand), []⟩
      | _, _ => ⟨s, .error "undefined behaviour: mxArrayToString on a non-string", []⟩
    | _ => ⟨s, .error "Wrong number of arguments", []⟩
  | .is_initialized =>
    ⟨s, .ok (.scalar (if s.net.isSome then 1 else 0)), []⟩
  | .set_mode_cpu => ⟨s, .ok .none, []⟩
  | .set_mode_gpu => ⟨s, .ok .none, []⟩
  | .set_phase_train => ⟨s, .ok .none, []⟩
  | .set_phase_test => ⟨s, .ok .none, []⟩
  | .set_device =>
    match args with
    | [_] => ⟨s, .ok .none, []⟩
    | _ => ⟨s, .error "Wrong number of arguments", []⟩
  | .get_weights =>
    match s.net with
    | Option.none => ⟨s, .error "undefined behaviour: null net_ dereference", []⟩
    | some n =>
      match do_get_weights n with
      | .ok l => ⟨s, .ok (.weights l), []⟩
      | .error e => ⟨s, .error e, []⟩
  | .get_blobs =>
    match s.net with
    | Option.none => ⟨s, .error "undefined behaviour: null net_ dereference", []⟩
    | some n => ⟨s, .ok (.blobs (do_get_blobs n)), []⟩
  | .get_init_key => ⟨s, .ok (.scalar s.init_key), []⟩
  | .reset =>
    if s.net.isSome then ⟨⟨Option.none, -2⟩, .ok .none, []⟩
    else ⟨s, .ok .none, []⟩
  | .read_mean =>
    match args with
    | [_] => ⟨s, .ok (.lib "read_mean"), []⟩
    | _ => ⟨s, .error "Usage: caffe(\x27read_mean\x27, \x27path_to_binary_mean_file\x27", []⟩

/-- The handler registry (lines 606–626), ending with the
`{ "END", NULL }` sentinel. -/
def handlers : List (String × Option Cmd) :=
  [("forward", some .forward),
   ("backward", some .backward),
   ("get_gradients", some .get_gradients),
   ("get_features", some .get_features),
   ("init", some .init),
   ("is_initialized", some .is_initialized),
   ("set_mode_cpu", some .set_mode_cpu),
   ("set_mode_gpu", some .set_mode_gpu),
   ("set_phase_train", some .set_phase_train),
   ("set_phase_test", some .set_phase_test),
   ("set_device", some .set_device),
   ("get_weights", some .get_weights),
   ("get_blobs", some .get_blobs),
   ("get_init_key", some .get_init_key),
   ("reset", some .reset),
   ("read_mean", some .read_mean),
   ("END", Option.none)]

/-- The dispatch loop of `mexFunction`: the loop condition
`handlers[i].func != NULL` is tested before the name comparison, so the
scan stops at the sentinel; the first entry whose name equals `cmd` is
selected. -/
def dispatchLoop : List (String × Option Cmd) → String → Option Cmd
  | [], _ => Option.none
  | (_, Option.none) :: _, _ => Option.none
  | (name, some c) :: rest, cmd =>
    if name = cmd then some c else dispatchLoop rest cmd

/-- Dispatch over the registry. -/
def dispatch (cmd : String) : Option Cmd := dispatchLoop handlers cmd

/-- The names the dispatch loop can ever compare against: registry entries
before the first entry with a null handler function. -/
def activeNames : List (String × Option Cmd) → List String
  | [] => []
  | (_, Option.none) :: _ => []
  | (name, some _) :: rest => name :: activeNames rest

/-- The names of the registered commands (registry entries that carry a
handler function; the `END` sentinel carries none). -/
def commandNames : List String :=
  ["forward", "backward", "get_gradients", "get_features", "init",
   "is_initialized", "set_mode_cpu", "set_mode_gpu", "set_phase_train",
   "set_phase_test", "set_device", "get_weights", "get_blobs",
   "get_init_key", "reset", "read_mean"]

/-- `mexFunction` (lines 632–656): with no arguments it aborts; otherwise
the first argument is converted by `mxArrayToString` and dispatched, the
selected handler receiving the remaining arguments; an unmatched command
aborts with the recognition error. -/
def mexFunction (o : Oracle) (s : BridgeState) (args : List MxValue) : CmdResult :=
  match args with
  | [] => ⟨s, .error "An API command is requires", []⟩
  | a :: rest =>
    match a with
    | .str cmd =>
      match dispatch cmd with
      | some c => runCmd o s c rest
      | Option.none => ⟨s, .error "API command not recognized", []⟩
    | _ => ⟨s, .error "undefined behaviour: mxArrayToString on a non-string", []⟩

/-! ## Traces of handler invocations -/

/-- One invocation as seen from MATLAB: the library environment for the
call, the command, and its arguments. -/
abbrev Invocation := Oracle × Cmd × List MxValue

/-- The bridge state after one invocation. -/
def stepState (s : BridgeState) (e : Invocation) : BridgeState :=
  (runCmd e.1 s e.2.1 e.2.2).state

/-- The bridge state after a chronological list of invocations, starting
from the load-time state (`net_` null, `init_key = -2`). -/
def runTrace (tr : List Invocation) : BridgeState :=
  tr.foldl stepState ⟨Option.none, -2⟩

/-- Modelled from the claim (C8), not from the source: the state machine
the claim describes.  The pair is (handle set?, key): a successful `init`
(two string arguments) sets the handle and records the key generated by
that init (`random()`); a `reset` with the handle set clears both to
(unset, -2); every other invocation leaves the pair unchanged. -/
def claimStep : Bool × Int → Invocation → Bool × Int
  | _, (o, .init, [.str _, .str _]) => (true, o.rand)
  | st, (_, .reset, _) => if st.1 then (false, -2) else st
  | st, _ => st

/-- The claim's state machine run from the load-time state. -/
def specMachine (tr : List Invocation) : Bool × Int :=
  tr.foldl claimStep (false, -2)

/-- The successive values of `channels_left` over the first `n` per-batch
gradient blobs: starts at the number of selected channels and decreases
by `batch_size` (clamped at 0, which natural subtraction realises) after
each blob. -/
def channelsLeftSeq (batchSize : Nat) : Nat → Nat → List Nat
  | _, 0 => []
  | k, n + 1 => k :: channelsLeftSeq batchSize (k - batchSize) n

/-! ## Concrete fixtures used to evaluate the model on closed inputs -/

/-- A 2×2×1×1 input blob with zeroed buffers. -/
def demoInBlob : Blob := ⟨2, 2, 1, 1, [0, 0, 0, 0], [0, 0, 0, 0]⟩

/-- A 2×2×1×1 output blob. -/
def demoOutBlob : Blob := ⟨2, 2, 1, 1, [0, 0, 0, 0], [9, 9, 9, 9]⟩

/-- A 1×1×1×1 parameter blob. -/
def demoParamBlob : Blob := ⟨1, 1, 1, 1, [5], [0]⟩

/-- A 1×1×1×1 per-batch gradient blob as `CalcGradientsPrefilled` would
allocate it. -/
def demoGradBlob : Blob := ⟨1, 1, 1, 1, [0], [77]⟩

/-- A small net whose engine functions echo their arguments: forward and
backward return the filled blobs, feature extraction returns the filled
inputs, gradient calculation returns one 1×1×1×1 blob. -/
def demoNet : Net where
  input_blobs := [demoInBlob]
  output_blobs := [demoOutBlob]
  layers := [("conv1", [demoParamBlob]), ("relu1", [])]
  named_blobs := [("data", ⟨2, 2, 1, 1, [1, 2, 3, 4], [5, 6, 7, 8]⟩)]
  batchSize := 1
  forwardPrefilled := fun bs => bs
  backwardRun := fun bs => bs
  getFeaturesPrefilled := fun _ bs => some bs
  calcGradientsPrefilled := fun _ _ _ => some [demoGradBlob]

/-- A net whose two consecutive parameter-bearing layers share the name
`"A"`. -/
def dupNameNet : Net :=
  { demoNet with layers := [("A", [demoParamBlob]), ("A", [⟨1, 1, 1, 1, [8], [0]⟩])] }

/-- A library environment that loads `demoNet` and whose next `random()`
call returns `k`. -/
def demoOracle (k : Int) : Oracle := ⟨fun _ _ => demoNet, k⟩

/-- A valid `bottom` argument for `demoNet`: one 2×2×1×1 single array with
pairwise distinct elements. -/
def demoBottom : MxValue := .cell [.num ⟨(2, 2, 1, 1), [10, 20, 30, 40]⟩]

/-- The four per-dimension mismatch messages of `do_get_features` /
`do_get_gradients`, in check order. -/
def dimErrorMsgs : List String :=
  ["The height of the input images is wrong!",
   "The width of the input images is wrong!",
   "The channel size of the input images is wrong!",
   "The batch size of the input images is wrong!"]

/-! # Helper lemmas -/

theorem convLoop_error_msg (ds : List ℚ) (m : String)
    (h : convLoop ds = .error m) : m = "The channel ids must be greater than zero!" := by
  induction ds with
  | nil => simp [convLoop] at h
  | cons d ds ih =>
    by_cases hd : d < 0
    · simp [convLoop, hd] at h
      exact h.symm
    · simp only [convLoop, if_neg hd] at h
      cases hr : convLoop ds with
      | ok l => rw [hr] at h; simp at h
      | error m2 => rw [hr] at h; simp at h; subst h; exact ih hr

theorem convLoop_error_iff (ds : List ℚ) :
    convLoop ds = .error "The channel ids must be greater than zero!" ↔ ∃ d ∈ ds, d < 0 := by
  induction ds with
  | nil => simp [convLoop]
  | cons d ds ih =>
    by_cases hd : d < 0
    · simp [convLoop, hd]
    · simp only [convLoop, if_neg hd]
      cases hr : convLoop ds with
      | ok l =>
        simp only [hr, List.mem_cons]
        constructor
        · intro h; simp at h
        · rintro ⟨x, hx, hlt⟩
          rcases hx with rfl | hx
          · exact absurd hlt hd
          · have hds := ih.mpr ⟨x, hx, hlt⟩
            rw [hr] at hds; simp at hds
      | error m2 =>
        have hm := convLoop_error_msg ds m2 hr
        subst hm
        simp only [hr, List.mem_cons]
        constructor
        · intro _
          obtain ⟨x, hx, hlt⟩ := ih.mp hr
          exact ⟨x, Or.inr hx, hlt⟩
        · intro _; trivial

theorem convLoop_ok_map (ds : List ℚ) (l : List Int)
    (h : convLoop ds = .ok l) : l = ds.map fun d => cTrunc (d + 1/2) := by
  induction ds generalizing l with
  | nil => simp [convLoop] at h; simp [h.symm]
  | cons d ds ih =>
    by_cases hd : d < 0
    · simp [convLoop, hd] at h
    · simp only [convLoop, if_neg hd] at h
      cases hr : convLoop ds with
      | ok r => rw [hr] at h; simp at h; simp [h.symm, ih r hr]
      | error m2 => rw [hr] at h; simp at h

theorem convertChannelIds_error_mem (ds : List ℚ) (m : String)
    (h : convertChannelIds ds = .error m) :
    m = "The channel ids must be greater than zero!" ∨
    m = "Channel list must not be empty." := by
  unfold convertChannelIds at h
  cases hr : convLoop ds with
  | ok l =>
    simp only [hr] at h
    by_cases hl : l.length < 1
    · rw [if_pos hl] at h; simp at h; right; exact h.symm
    · rw [if_neg hl] at h; simp at h
  | error m2 =>
    rw [hr] at h; simp at h
    left; exact h ▸ convLoop_error_msg ds m2 hr

theorem dimCheck_error_mem (d : Dims4) (b : Blob) (m : String)
    (h : dimCheck d b = .error m) : m ∈ dimErrorMsgs := by
  unfold dimCheck at h
  split_ifs at h <;> simp_all [dimErrorMsgs]

theorem checkCopyInputs_error_mem (es : List MxValue) : ∀ (bs : List Blob) (m : String),
    checkCopyInputs es bs = .error m →
    m ∈ dimErrorMsgs ∨
    m = "undefined behaviour: mxGetDimensions/mxGetPr on a non-numeric cell" ∨
    m = "input cell count does not match input blob count" := by
  induction es with
  | nil =>
    intro bs m h
    cases bs with
    | nil => simp [checkCopyInputs] at h
    | cons b bs => simp [checkCopyInputs] at h; simp [h.symm]
  | cons e es ih =>
    intro bs m h
    cases bs with
    | nil => simp [checkCopyInputs] at h; simp [h.symm]
    | cons b bs =>
      cases e with
      | num a =>
        simp only [checkCopyInputs] at h
        cases hd : dimCheck a.dims b with
        | error m2 =>
          rw [hd] at h; simp at h
          exact Or.inl (h ▸ dimCheck_error_mem a.dims b m2 hd)
        | ok u =>
          rw [hd] at h
          cases hr : checkCopyInputs es bs with
          | ok r => rw [hr] at h; simp at h
          | error m2 => rw [hr] at h; simp at h; exact h ▸ ih bs m2 hr
      | str s => simp [checkCopyInputs] at h; simp [h.symm]
      | dbl r c l => simp [checkCopyInputs] at h; simp [h.symm]
      | cell l => simp [checkCopyInputs] at h; simp [h.symm]

theorem copyForwardInputs_error_mem (es : List MxValue) : ∀ (bs : List Blob) (m : String),
    copyForwardInputs es bs = .error m →
    m = "MatCaffe input size does not match the input size of the network" ∨
    m = "MatCaffe require single-precision float point data" ∨
    m = "input cell count does not match input blob count" := by
  induction es with
  | nil =>
    intro bs m h
    cases bs with
    | nil => simp [copyForwardInputs] at h
    | cons b bs => simp [copyForwardInputs] at h; simp [h.symm]
  | cons e es ih =>
    intro bs m h
    cases bs with
    | nil => simp [copyForwardInputs] at h; simp [h.symm]
    | cons b bs =>
      cases e with
      | num a =>
        simp only [copyForwardInputs] at h
        by_cases hl : a.data.length ≠ b.count
        · rw [if_pos hl] at h; simp at h; simp [h.symm]
        · rw [if_neg hl] at h
          cases hr : copyForwardInputs es bs with
          | ok r => rw [hr] at h; simp at h
          | error m2 => rw [hr] at h; simp at h; exact h ▸ ih bs m2 hr
      | str s => simp [copyForwardInputs] at h; simp [h.symm]
      | dbl r c l => simp [copyForwardInputs] at h; simp [h.symm]
      | cell l => simp [copyForwardInputs] at h; simp [h.symm]

theorem copyBackwardTops_error_mem (es : List MxValue) : ∀ (bs : List Blob) (m : String),
    copyBackwardTops es bs = .error m →
    m = "undefined behaviour: mxGetPr on a non-numeric cell" ∨
    m = "output cell count does not match output blob count" := by
  induction es with
  | nil =>
    intro bs m h
    cases bs with
    | nil => simp [copyBackwardTops] at h
    | cons b bs => simp [copyBackwardTops] at h; simp [h.symm]
  | cons e es ih =>
    intro bs m h
    cases bs with
    | nil => simp [copyBackwardTops] at h; simp [h.symm]
    | cons b bs =>
      cases e with
      | num a =>
        simp only [copyBackwardTops] at h
        cases hr : copyBackwardTops es bs with
        | ok r => rw [hr] at h; simp at h
        | error m2 => rw [hr] at h; simp at h; exact h ▸ ih bs m2 hr
      | str s => simp [copyBackwardTops] at h; simp [h.symm]
      | dbl r c l => simp [copyBackwardTops] at h; simp [h.symm]
      | cell l => simp [copyBackwardTops] at h; simp [h.symm]

theorem weightsLoop_error_msg (ls : List (String × List Blob)) : ∀ (prev : String) (m : String),
    weightsLoop prev ls = .error m →
    m = "undefined behaviour: mxSetCell on the NULL mx_layer_cells" := by
  induction ls with
  | nil => intro prev m h; simp [weightsLoop] at h
  | cons l ls ih =>
    intro prev m h
    simp only [weightsLoop] at h
    by_cases he : l.2.isEmpty
    · rw [if_pos he] at h; exact ih prev m h
    · rw [if_neg he] at h
      by_cases hn : l.1 ≠ prev
      · rw [if_pos hn] at h
        cases hr : weightsLoop l.1 ls with
        | ok r => rw [hr] at h; simp at h
        | error m2 => rw [hr] at h; simp at h; exact h ▸ ih l.1 m2 hr
      · rw [if_neg hn] at h; simp at h; exact h.symm

theorem do_forward_error_ne (net : Net) (bottom : MxValue) (m : String)
    (h : do_forward net bottom = .error m) : m ≠ "API command not recognized" := by
  unfold do_forward at h
  cases bottom with
  | cell cells =>
    dsimp only [] at h
    by_cases hl : cells.length ≠ net.input_blobs.length
    · rw [if_pos hl] at h; simp at h; simp [h.symm]
    · rw [if_neg hl] at h
      cases hr : copyForwardInputs cells net.input_blobs with
      | error m2 =>
        rw [hr] at h; simp at h
        rcases h ▸ copyForwardInputs_error_mem cells net.input_blobs m2 hr with
          h2 | h2 | h2 <;> simp [h2]
      | ok filled => rw [hr] at h; simp at h
  | str s => simp at h; simp [h.symm]
  | num a => simp at h; simp [h.symm]
  | dbl r c l => simp at h; simp [h.symm]

theorem do_backward_error_ne (net : Net) (top_diff : MxValue) (m : String)
    (h : do_backward net top_diff = .error m) : m ≠ "API command not recognized" := by
  unfold do_backward at h
  cases top_diff with
  | cell cells =>
    dsimp only [] at h
    by_cases hl : cells.length ≠ net.output_blobs.length
    · rw [if_pos hl] at h; simp at h; simp [h.symm]
    · rw [if_neg hl] at h
      cases hr : copyBackwardTops cells net.output_blobs with
      | error m2 =>
        rw [hr] at h; simp at h
        rcases h ▸ copyBackwardTops_error_mem cells net.output_blobs m2 hr with
          h2 | h2 <;> simp [h2]
      | ok filled => rw [hr] at h; simp at h
  | str s => simp at h; simp [h.symm]
  | num a => simp at h; simp [h.symm]
  | dbl r c l => simp at h; simp [h.symm]

theorem do_get_features_error_ne (net? : Option Net) (bottom layername : MxValue) (m : String)
    (h : do_get_features net? bottom layername = .error m) :
    m ≠ "API command not recognized" := by
  unfold do_get_features at h
  cases net? with
  | none => simp at h; simp [h.symm]
  | some net =>
    cases layername with
    | str layer_name =>
      cases bottom with
      | cell cells =>
        dsimp only [] at h
        by_cases hl : cells.length ≠ net.input_blobs.length
        · rw [if_pos hl] at h; simp at h; simp [h.symm]
        · rw [if_neg hl] at h
          cases hr : checkCopyInputs cells net.input_blobs with
          | error m2 =>
            rw [hr] at h; simp at h
            rcases h ▸ checkCopyInputs_error_mem cells net.input_blobs m2 hr with
              h2 | h2 | h2
            · fin_cases h2 <;> simp
            · simp [h2]
            · simp [h2]
          | ok filled =>
            rw [hr] at h
            dsimp only [] at h
            cases hf : net.getFeaturesPrefilled layer_name filled with
            | none => rw [hf] at h; simp at h; simp [h.symm]
            | some outs => rw [hf] at h; simp at h
      | str s => simp at h; simp [h.symm]
      | num a => simp at h; simp [h.symm]
      | dbl r c l => simp at h; simp [h.symm]
    | cell l => simp at h; simp [h.symm]
    | num a => simp at h; simp [h.symm]
    | dbl r c l => simp at h; simp [h.symm]

theorem do_get_gradients_error_ne (net? : Option Net)
    (bottom layername channel_ids : MxValue) (m : String)
    (h : do_get_gradients net? bottom layername channel_ids = .error m) :
    m ≠ "API command not recognized" := by
  unfold do_get_gradients at h
  cases net? with
  | none => simp at h; simp [h.symm]
  | some net =>
    cases layername with
    | str layer_name =>
      cases channel_ids with
      | dbl rows cols ds =>
        dsimp only [] at h
        cases hc : convertChannelIds (ds.take (rows * cols)) with
        | error m2 =>
          rw [hc] at h; simp at h
          rcases h ▸ convertChannelIds_error_mem _ m2 hc with h2 | h2 <;> simp [h2]
        | ok ids =>
          rw [hc] at h
          cases bottom with
          | cell cells =>
            dsimp only [] at h
            by_cases hl : cells.length ≠ net.input_blobs.length
            · rw [if_pos hl] at h; simp at h; simp [h.symm]
            · rw [if_neg hl] at h
              cases hr : checkCopyInputs cells net.input_blobs with
              | error m2 =>
                rw [hr] at h; simp at h
                rcases h ▸ checkCopyInputs_error_mem cells net.input_blobs m2 hr with
                  h2 | h2 | h2
                · fin_cases h2 <;> simp
                · simp [h2]
                · simp [h2]
              | ok filled =>
                rw [hr] at h
                dsimp only [] at h
                cases hg : net.calcGradientsPrefilled layer_name ids filled with
                | none => rw [hg] at h; simp at h; simp [h.symm]
                | some output_blobs =>
                  rw [hg] at h
                  cases output_blobs with
                  | nil => simp at h; simp [h.symm]
                  | cons b0 rest =>
                    dsimp only [] at h
                    by_cases hck :
                      (gradAccum net.batchSize ids.length (b0 :: rest)).2 ≠
                        b0.width * b0.height * b0.channels * ids.length
                    · rw [if_pos hck] at h; simp at h; simp [h.symm]
                    · rw [if_neg hck] at h; simp at h
          | str s => simp at h; simp [h.symm]
          | num a => simp at h; simp [h.symm]
          | dbl r c l => simp at h; simp [h.symm]
      | cell l => simp at h; simp [h.symm]
      | num a => simp at h; simp [h.symm]
      | str s2 => simp at h; simp [h.symm]
    | cell l => simp at h; simp [h.symm]
    | num a => simp at h; simp [h.symm]
    | dbl r c l => simp at h; simp [h.symm]

theorem runCmd_out_ne_notRecognized (o : Oracle) (s : BridgeState) (c : Cmd)
    (args : List MxValue) :
    (runCmd o s c args).out ≠ .error "API command not recognized" := by
  cases c with
  | forward =>
    unfold runCmd
    match args with
    | [] => simp
    | [bottom] =>
      cases s.net with
      | none => simp
      | some n =>
        cases hf : do_forward n bottom with
        | ok l => simp [hf]
        | error e =>
          simp only [hf]
          intro hcon
          simp at hcon
          exact do_forward_error_ne n bottom e hf hcon
    | _ :: _ :: _ => simp
  | backward =>
    unfold runCmd
    match args with
    | [] => simp
    | [top_diff] =>
      cases s.net with
      | none => simp
      | some n =>
        cases hf : do_backward n top_diff with
        | ok l => simp [hf]
        | error e =>
          simp only [hf]
          intro hcon
          simp at hcon
          exact do_backward_error_ne n top_diff e hf hcon
    | _ :: _ :: _ => simp
  | get_gradients =>
    unfold runCmd
    match args with
    | [] => simp
    | [_] => simp
    | [_, _] => simp
    | [bottom, layername, channel_ids] =>
      cases hf : do_get_gradients s.net bottom layername channel_ids with
      | ok r => simp [hf]
      | error e =>
        simp only [hf]
        intro hcon
        simp at hcon
        exact do_get_gradients_error_ne s.net bottom layername channel_ids e hf hcon
    | _ :: _ :: _ :: _ :: _ => simp
  | get_features =>
    unfold runCmd
    match args with
    | [] => simp
    | [_] => simp
    | [bottom, layername] =>
      cases hf : do_get_features s.net bottom layername with
      | ok l => simp [hf]
      | error e =>
        simp only [hf]
        intro hcon
        simp at hcon
        exact do_get_features_error_ne s.net bottom layername e hf hcon
    | _ :: _ :: _ :: _ => simp
  | init =>
    unfold runCmd
    match args with
    | [] => simp
    | [_] => simp
    | [param_file, model_file] =>
      cases param_file <;> cases model_file <;> simp
    | _ :: _ :: _ :: _ => simp
  | is_initialized => unfold runCmd; simp
  | set_mode_cpu => unfold runCmd; simp
  | set_mode_gpu => unfold runCmd; simp
  | set_phase_train => unfold runCmd; simp
  | set_phase_test => unfold runCmd; simp
  | set_device =>
    unfold runCmd
    match args with
    | [] => simp
    | [_] => simp
    | _ :: _ :: _ => simp
  | get_weights =>
    unfold runCmd
    cases s.net with
    | none => simp
    | some n =>
      cases hf : do_get_weights n with
      | ok l => simp [hf]
      | error e =>
        simp only [hf]
        intro hcon
        simp at hcon
        have := weightsLoop_error_msg n.layers "" e hf
        simp [this] at hcon
  | get_blobs =>
    unfold runCmd
    cases s.net with
    | none => simp
    | some n => simp
  | get_init_key => unfold runCmd; simp
  | reset =>
    unfold runCmd
    by_cases hn : s.net.isSome <;> simp [hn]
  | read_mean =>
    unfold runCmd
    match args with
    | [] => simp
    | [_] => simp
    | _ :: _ :: _ => simp

theorem dispatchLoop_none_iff (l : List (String × Option Cmd)) (cmd : String) :
    dispatchLoop l cmd = Option.none ↔ cmd ∉ activeNames l := by
  induction l with
  | nil => simp [dispatchLoop, activeNames]
  | cons p rest ih =>
    obtain ⟨name, oc⟩ := p
    cases oc with
    | none => simp [dispatchLoop, activeNames]
    | some c =>
      by_cases hn : name = cmd
      · subst hn
        simp [dispatchLoop, activeNames]
      · simp only [dispatchLoop, if_neg hn, activeNames, List.mem_cons]
        rw [ih]
        constructor
        · intro h hc
          rcases hc with hc | hc
          · exact hn hc.symm
          · exact h hc
        · intro h hc
          exact h (Or.inr hc)

theorem dispatchLoop_some_mem (l : List (String × Option Cmd)) (cmd : String) (c : Cmd)
    (h : dispatchLoop l cmd = some c) : (cmd, some c) ∈ l := by
  induction l with
  | nil => simp [dispatchLoop] at h
  | cons p rest ih =>
    obtain ⟨name, oc⟩ := p
    cases oc with
    | none => simp [dispatchLoop] at h
    | some c2 =>
      by_cases hn : name = cmd
      · subst hn
        simp [dispatchLoop] at h
        simp [h]
      · simp only [dispatchLoop, if_neg hn] at h
        exact List.mem_cons_of_mem _ (ih h)

theorem activeNames_handlers : activeNames handlers = commandNames := rfl

theorem dispatch_none_iff (cmd : String) :
    dispatch cmd = Option.none ↔ cmd ∉ commandNames := by
  rw [← activeNames_handlers]
  exact dispatchLoop_none_iff handlers cmd

theorem dispatch_some_mem (cmd : String) (c : Cmd) (h : dispatch cmd = some c) :
    (cmd, some c) ∈ handlers :=
  dispatchLoop_some_mem handlers cmd c h

theorem copyForwardInputs_ok_spec (es : List MxValue) : ∀ (bs filled : List Blob),
    copyForwardInputs es bs = .ok filled →
    es.length = bs.length ∧ filled.length = bs.length ∧
    ∀ (i : Nat) (a : MxNum) (b : Blob),
      es[i]? = some (.num a) → bs[i]? = some b →
      filled[i]? = some { b with data := a.data } := by
  induction es with
  | nil =>
    intro bs filled h
    cases bs with
    | nil =>
      simp [copyForwardInputs] at h
      subst h
      refine ⟨rfl, rfl, fun i a b ha hb => ?_⟩
      simp at ha
    | cons b bs => simp [copyForwardInputs] at h
  | cons e es ih =>
    intro bs filled h
    cases bs with
    | nil => simp [copyForwardInputs] at h
    | cons b bs =>
      cases e with
      | num a =>
        simp only [copyForwardInputs] at h
        by_cases hl : a.data.length ≠ b.count
        · rw [if_pos hl] at h; simp at h
        · rw [if_neg hl] at h
          cases hr : copyForwardInputs es bs with
          | error m2 => rw [hr] at h; simp at h
          | ok r =>
            rw [hr] at h; simp at h
            obtain ⟨h1, h2, h3⟩ := ih bs r hr
            subst h
            refine ⟨by simp [h1], by simp [h2], fun i a2 b2 ha hb => ?_⟩
            match i with
            | 0 =>
              simp at ha hb
              subst ha
              subst hb
              simp
            | i + 1 =>
              simp only [List.getElem?_cons_succ] at ha hb ⊢
              exact h3 i a2 b2 ha hb
      | str s => simp [copyForwardInputs] at h
      | dbl r c l => simp [copyForwardInputs] at h
      | cell l => simp [copyForwardInputs] at h

theorem copyBackwardTops_ok_spec (es : List MxValue) : ∀ (bs filled : List Blob),
    copyBackwardTops es bs = .ok filled →
    es.length = bs.length ∧ filled.length = bs.length ∧
    ∀ (i : Nat) (a : MxNum) (b : Blob),
      es[i]? = some (.num a) → bs[i]? = some b →
      filled[i]? = some { b with diff := a.data.take b.count } := by
  induction es with
  | nil =>
    intro bs filled h
    cases bs with
    | nil =>
      simp [copyBackwardTops] at h
      subst h
      refine ⟨rfl, rfl, fun i a b ha hb => ?_⟩
      simp at ha
    | cons b bs => simp [copyBackwardTops] at h
  | cons e es ih =>
    intro bs filled h
    cases bs with
    | nil => simp [copyBackwardTops] at h
    | cons b bs =>
      cases e with
      | num a =>
        simp only [copyBackwardTops] at h
        cases hr : copyBackwardTops es bs with
        | error m2 => rw [hr] at h; simp at h
        | ok r =>
          rw [hr] at h; simp at h
          obtain ⟨h1, h2, h3⟩ := ih bs r hr
          subst h
          refine ⟨by simp [h1], by simp [h2], fun i a2 b2 ha hb => ?_⟩
          match i with
          | 0 =>
            simp at ha hb
            subst ha
            subst hb
            simp
          | i + 1 =>
            simp only [List.getElem?_cons_succ] at ha hb ⊢
            exact h3 i a2 b2 ha hb
      | str s => simp [copyBackwardTops] at h
      | dbl r c l => simp [copyBackwardTops] at h
      | cell l => simp [copyBackwardTops] at h

theorem checkCopyInputs_ok_spec (es : List MxValue) : ∀ (bs filled : List Blob),
    checkCopyInputs es bs = .ok filled →
    es.length = bs.length ∧ filled.length = bs.length ∧
    ∀ (i : Nat) (a : MxNum) (b : Blob),
      es[i]? = some (.num a) → bs[i]? = some b →
      dimCheck a.dims b = .ok () ∧
      filled[i]? = some { b with data := a.data.take b.count } := by
  induction es with
  | nil =>
    intro bs filled h
    cases bs with
    | nil =>
      simp [checkCopyInputs] at h
      subst h
      refine ⟨rfl, rfl, fun i a b ha hb => ?_⟩
      simp at ha
    | cons b bs => simp [checkCopyInputs] at h
  | cons e es ih =>
    intro bs filled h
    cases bs with
    | nil => simp [checkCopyInputs] at h
    | cons b bs =>
      cases e with
      | num a =>
        simp only [checkCopyInputs] at h
        cases hd : dimCheck a.dims b with
        | error m2 => rw [hd] at h; simp at h
        | ok u =>
          rw [hd] at h
          cases hr : checkCopyInputs es bs with
          | error m2 => rw [hr] at h; simp at h
          | ok r =>
            rw [hr] at h; simp at h
            obtain ⟨h1, h2, h3⟩ := ih bs r hr
            subst h
            refine ⟨by simp [h1], by simp [h2], fun i a2 b2 ha hb => ?_⟩
            match i with
            | 0 =>
              simp at ha hb
              subst ha
              subst hb
              refine ⟨by rw [hd], ?_⟩
              simp
            | i + 1 =>
              simp only [List.getElem?_cons_succ] at ha hb ⊢
              exact h3 i a2 b2 ha hb
      | str s => simp [checkCopyInputs] at h
      | dbl r c l => simp [checkCopyInputs] at h
      | cell l => simp [checkCopyInputs] at h

theorem mismatch_cons_iff (a : MxNum) (b : Blob) (es : List MxValue) (bs : List Blob) :
    (∃ (i : Nat) (a2 : MxNum) (b2 : Blob),
        (MxValue.num a :: es)[i]? = some (.num a2) ∧ (b :: bs)[i]? = some b2 ∧
        ¬ dimCheck a2.dims b2 = .ok ()) ↔
      (¬ dimCheck a.dims b = .ok () ∨
        ∃ (i : Nat) (a2 : MxNum) (b2 : Blob),
          es[i]? = some (.num a2) ∧ bs[i]? = some b2 ∧ ¬ dimCheck a2.dims b2 = .ok ()) := by
  constructor
  · rintro ⟨i, a2, b2, ha2, hb2, hne⟩
    match i with
    | 0 =>
      simp at ha2 hb2
      subst ha2
      subst hb2
      exact Or.inl hne
    | i + 1 =>
      simp only [List.getElem?_cons_succ] at ha2 hb2
      exact Or.inr ⟨i, a2, b2, ha2, hb2, hne⟩
  · rintro (hne | ⟨i, a2, b2, ha2, hb2, hne⟩)
    · exact ⟨0, a, b, by simp, by simp, hne⟩
    · exact ⟨i + 1, a2, b2, by simpa using ha2, by simpa using hb2, hne⟩

theorem checkCopyInputs_dim_error_iff (es : List MxValue) : ∀ (bs : List Blob),
    es.length = bs.length → (∀ e ∈ es, ∃ a, e = .num a) →
    ((∃ m ∈ dimErrorMsgs, checkCopyInputs es bs = .error m) ↔
      ∃ (i : Nat) (a : MxNum) (b : Blob), es[i]? = some (.num a) ∧ bs[i]? = some b ∧
        ¬ dimCheck a.dims b = .ok ()) := by
  induction es with
  | nil =>
    intro bs hlen _
    cases bs with
    | nil => simp [checkCopyInputs]
    | cons b bs => simp at hlen
  | cons e es ih =>
    intro bs hlen hnum
    cases bs with
    | nil => simp at hlen
    | cons b bs =>
      obtain ⟨a, ha⟩ := hnum e (List.mem_cons_self e es)
      subst ha
      rw [mismatch_cons_iff]
      have hlen2 : es.length = bs.length := by simpa using hlen
      have hnum2 : ∀ e2 ∈ es, ∃ a2, e2 = .num a2 :=
        fun e2 he => hnum e2 (List.mem_cons_of_mem _ he)
      have ihx := ih bs hlen2 hnum2
      simp only [checkCopyInputs]
      cases hd : dimCheck a.dims b with
      | error m2 =>
        dsimp only []
        constructor
        · intro _
          exact Or.inl (by simp)
        · intro _
          exact ⟨m2, dimCheck_error_mem a.dims b m2 hd, rfl⟩
      | ok u =>
        cases u
        dsimp only []
        cases hr : checkCopyInputs es bs with
        | ok r =>
          simp only [hr]
          constructor
          · rintro ⟨m, hm, hcon⟩
            simp at hcon
          · rintro (hne | hx)
            · simp at hne
            · obtain ⟨m, hm, hcon⟩ := ihx.mpr hx
              rw [hr] at hcon
              simp at hcon
        | error m2 =>
          simp only [hr]
          constructor
          · rintro ⟨m, hm, hcon⟩
            simp at hcon
            subst hcon
            exact Or.inr (ihx.mp ⟨m2, hm, hr⟩)
          · rintro (hne | hx)
            · simp at hne
            · obtain ⟨m, hm, hcon⟩ := ihx.mpr hx
              rw [hr] at hcon
              simp at hcon
              subst hcon
              exact ⟨m2, hm, rfl⟩

theorem convertChannelIds_ok_of (ds : List ℚ) (hne : ds ≠ [])
    (hpos : ∀ d ∈ ds, ¬ d < 0) :
    convertChannelIds ds = .ok (ds.map fun d => cTrunc (d + 1/2)) := by
  have hconv : convLoop ds = .ok (ds.map fun d => cTrunc (d + 1/2)) := by
    cases hr : convLoop ds with
    | ok l => rw [convLoop_ok_map ds l hr]
    | error m =>
      have hm := convLoop_error_msg ds m hr
      subst hm
      obtain ⟨d, hd, hlt⟩ := (convLoop_error_iff ds).mp hr
      exact absurd hlt (hpos d hd)
  have hlt : ¬ (ds.map fun d => cTrunc (d + 1/2)).length < 1 := by simpa using hne
  unfold convertChannelIds
  rw [hconv]
  dsimp only []
  rw [if_neg hlt]

theorem gradAccum_eq_zipWith (batchSize : Nat) : ∀ (bs : List Blob) (k : Nat),
    gradAccum batchSize k bs =
      ((List.zipWith
          (fun b cl => b.diff.take (min b.count (b.width * b.height * b.channels * cl)))
          bs (channelsLeftSeq batchSize k bs.length)).flatten,
       (List.zipWith
          (fun b cl => min b.count (b.width * b.height * b.channels * cl))
          bs (channelsLeftSeq batchSize k bs.length)).sum) := by
  intro bs
  induction bs with
  | nil => intro k; simp [gradAccum, channelsLeftSeq]
  | cons b bs ih =>
    intro k
    simp only [gradAccum, List.length_cons, channelsLeftSeq, List.zipWith_cons_cons,
      List.flatten_cons, List.sum_cons, ih (k - batchSize)]

theorem gradAccum_length (batchSize : Nat) : ∀ (bs : List Blob) (k : Nat),
    (∀ b ∈ bs, b.diff.length = b.count) →
    (gradAccum batchSize k bs).1.length = (gradAccum batchSize k bs).2 := by
  intro bs
  induction bs with
  | nil => intro k _; simp [gradAccum]
  | cons b bs ih =>
    intro k hwf
    have h1 : b.diff.length = b.count := hwf b (List.mem_cons_self b bs)
    have h2 := ih (k - batchSize) fun b2 hb => hwf b2 (List.mem_cons_of_mem _ hb)
    simp only [gradAccum, List.length_append, List.length_take, h1, h2]
    omega

theorem convertChannelIds_ok_elim (ds : List ℚ) (l : List Int)
    (h : convertChannelIds ds = .ok l) :
    l = (ds.map fun d => cTrunc (d + 1/2)) ∧ 1 ≤ l.length := by
  unfold convertChannelIds at h
  cases hr : convLoop ds with
  | ok l2 =>
    simp only [hr] at h
    by_cases hl : l2.length < 1
    · rw [if_pos hl] at h; simp at h
    · rw [if_neg hl] at h
      simp at h
      subst h
      exact ⟨convLoop_ok_map ds l2 hr, by omega⟩
  | error m => rw [hr] at h; simp at h

/-! # Claim theorems -/

/-- **C1.** `mexFunction` dispatches `caffe(cmd, args...)` to the unique
registered handler whose command name equals `cmd`: the registered names
are pairwise distinct, the scan returns a handler only for a registry
entry whose name equals `cmd`, the selected handler is called with the
remaining arguments, and the error `API command not recognized` is raised
if and only if `cmd` equals no registered command name (the `END`
sentinel carries no handler and is never compared).  With zero arguments
`mexFunction` raises `An API command is requires` instead of
dispatching. -/
theorem c1_command_dispatch :
    (∀ (o : Oracle) (s : BridgeState),
      mexFunction o s [] = ⟨s, .error "An API command is requires", []⟩) ∧
    commandNames.Nodup ∧
    (∀ cmd : String, dispatch cmd = Option.none ↔ cmd ∉ commandNames) ∧
    (∀ (cmd : String) (c : Cmd), dispatch cmd = some c → (cmd, some c) ∈ handlers) ∧
    (∀ (o : Oracle) (s : BridgeState) (cmd : String) (rest : List MxValue) (c : Cmd),
      dispatch cmd = some c →
      mexFunction o s (.str cmd :: rest) = runCmd o s c rest) ∧
    (∀ (o : Oracle) (s : BridgeState) (cmd : String) (rest : List MxValue),
      (mexFunction o s (.str cmd :: rest)).out = .error "API command not recognized"
        ↔ cmd ∉ commandNames) := by
  refine ⟨fun o s => rfl, by decide, dispatch_none_iff, dispatch_some_mem,
    fun o s cmd rest c h => ?_, fun o s cmd rest => ?_⟩
  · unfold mexFunction
    dsimp only []
    rw [h]
  · constructor
    · intro h
      cases hd : dispatch cmd with
      | some c =>
        unfold mexFunction at h
        dsimp only [] at h
        rw [hd] at h
        exact absurd h (runCmd_out_ne_notRecognized o s c rest)
      | none => exact (dispatch_none_iff cmd).mp hd
    · intro h
      have hd := (dispatch_none_iff cmd).mpr h
      unfold mexFunction
      dsimp only []
      rw [hd]

/-- Witness for C1: `"reset"` is a registered command and dispatches to
the `reset` handler with the remaining (empty) argument list, while
`"frobnicate"` is not registered and raises the recognition error. -/
theorem c1_command_dispatch_witness :
    (mexFunction (demoOracle 0) ⟨Option.none, -2⟩ [.str "reset"] =
      runCmd (demoOracle 0) ⟨Option.none, -2⟩ .reset []) ∧
    ((mexFunction (demoOracle 0) ⟨Option.none, -2⟩ [.str "frobnicate"]).out =
      .error "API command not recognized") := by
  constructor
  · exact c1_command_dispatch.2.2.2.2.1 (demoOracle 0) ⟨Option.none, -2⟩
      "reset" [] .reset (by decide)
  · exact (c1_command_dispatch.2.2.2.2.2 (demoOracle 0) ⟨Option.none, -2⟩
      "frobnicate" []).mpr (by decide)

/-- **C10.** When the network handle is null, `do_get_features` and
`do_get_gradients` raise `Initialize caffe first by calling
matcaffe_init.` before touching any input (the result is this error for
*every* argument value); when initialized (and given a well-typed cell
array of the right cell count, with valid channel ids in the
`get_gradients` case, so that no earlier check fires), they raise one of
the four dimension errors if and only if some input cell's size along
dimension 1, 2, 3 or 4 differs from the corresponding input blob's
width, height, channels or num respectively — and the dimension-1 check
compares against the blob's *width* although its message says height,
while the dimension-2 check compares against the blob's *height*
although its message says width. -/
theorem c10_error_handling :
    (∀ bottom layername : MxValue,
      do_get_features Option.none bottom layername =
        .error "Initialize caffe first by calling matcaffe_init.") ∧
    (∀ bottom layername channel_ids : MxValue,
      do_get_gradients Option.none bottom layername channel_ids =
        .error "Initialize caffe first by calling matcaffe_init.") ∧
    (∀ (d : Dims4) (b : Blob),
      (dimCheck d b = .ok () ↔
        d.1 = b.width ∧ d.2.1 = b.height ∧ d.2.2.1 = b.channels ∧ d.2.2.2 = b.num) ∧
      (dimCheck d b = .error "The height of the input images is wrong!" ↔
        d.1 ≠ b.width) ∧
      (dimCheck d b = .error "The width of the input images is wrong!" ↔
        d.1 = b.width ∧ d.2.1 ≠ b.height)) ∧
    (∀ (net : Net) (cells : List MxValue) (lname : String),
      cells.length = net.input_blobs.length →
      (∀ e ∈ cells, ∃ a, e = .num a) →
      ((∃ m ∈ dimErrorMsgs,
          do_get_features (some net) (.cell cells) (.str lname) = .error m) ↔
        ∃ (i : Nat) (a : MxNum) (b : Blob),
          cells[i]? = some (.num a) ∧ net.input_blobs[i]? = some b ∧
          ¬ dimCheck a.dims b = .ok ())) ∧
    (∀ (net : Net) (cells : List MxValue) (lname : String) (rows cols : Nat)
        (ds : List ℚ),
      ds.take (rows * cols) ≠ [] →
      (∀ d ∈ ds.take (rows * cols), ¬ d < 0) →
      cells.length = net.input_blobs.length →
      (∀ e ∈ cells, ∃ a, e = .num a) →
      ((∃ m ∈ dimErrorMsgs,
          do_get_gradients (some net) (.cell cells) (.str lname)
            (.dbl rows cols ds) = .error m) ↔
        ∃ (i : Nat) (a : MxNum) (b : Blob),
          cells[i]? = some (.num a) ∧ net.input_blobs[i]? = some b ∧
          ¬ dimCheck a.dims b = .ok ())) := by
  refine ⟨fun bottom layername => rfl, fun bottom layername channel_ids => rfl,
    ?_, ?_, ?_⟩
  · intro d b
    refine ⟨?_, ?_, ?_⟩ <;> (unfold dimCheck; split_ifs <;> simp_all)
  · intro net cells lname hlen hnum
    have hiff := checkCopyInputs_dim_error_iff cells net.input_blobs hlen hnum
    unfold do_get_features
    dsimp only []
    rw [if_neg (by omega)]
    cases hr : checkCopyInputs cells net.input_blobs with
    | error m =>
      simp only [hr]
      rw [← hiff, hr]
      simp
    | ok filled =>
      simp only [hr]
      cases hf : net.getFeaturesPrefilled lname filled with
      | none =>
        simp only [hf]
        constructor
        · rintro ⟨m, hm, hcon⟩
          simp at hcon
          subst hcon
          simp [dimErrorMsgs] at hm
        · intro hx
          exfalso
          obtain ⟨m, hm, hcon⟩ := hiff.mpr hx
          rw [hr] at hcon
          simp at hcon
      | some outs =>
        simp only [hf]
        constructor
        · rintro ⟨m, hm, hcon⟩
          simp at hcon
        · intro hx
          exfalso
          obtain ⟨m, hm, hcon⟩ := hiff.mpr hx
          rw [hr] at hcon
          simp at hcon
  · intro net cells lname rows cols ds hne hpos hlen hnum
    have hids := convertChannelIds_ok_of (ds.take (rows * cols)) hne hpos
    have hiff := checkCopyInputs_dim_error_iff cells net.input_blobs hlen hnum
    unfold do_get_gradients
    simp only [hids]
    rw [if_neg (by omega)]
    cases hr : checkCopyInputs cells net.input_blobs with
    | error m =>
      simp only [hr]
      rw [← hiff, hr]
      simp
    | ok filled =>
      simp only [hr]
      cases hg : net.calcGradientsPrefilled lname
          ((ds.take (rows * cols)).map fun d => cTrunc (d + 1/2)) filled with
      | none =>
        simp only [hg]
        constructor
        · rintro ⟨m, hm, hcon⟩
          simp at hcon
          subst hcon
          simp [dimErrorMsgs] at hm
        · intro hx
          exfalso
          obtain ⟨m, hm, hcon⟩ := hiff.mpr hx
          rw [hr] at hcon
          simp at hcon
      | some obs =>
        simp only [hg]
        have hnomis : ¬ ∃ (i : Nat) (a : MxNum) (b : Blob),
            cells[i]? = some (.num a) ∧ net.input_blobs[i]? = some b ∧
            ¬ dimCheck a.dims b = .ok () := by
          intro hx
          obtain ⟨m, hm, hcon⟩ := hiff.mpr hx
          rw [hr] at hcon
          simp at hcon
        cases obs with
        | nil =>
          dsimp only []
          constructor
          · rintro ⟨m, hm, hcon⟩
            simp at hcon
            subst hcon
            simp [dimErrorMsgs] at hm
          · intro hx
            exact absurd hx hnomis
        | cons b0 rest =>
          dsimp only []
          by_cases hck :
            (gradAccum net.batchSize
              ((ds.take (rows * cols)).map fun d => cTrunc (d + 1/2)).length
              (b0 :: rest)).2 ≠
              b0.width * b0.height * b0.channels *
                ((ds.take (rows * cols)).map fun d => cTrunc (d + 1/2)).length
          · rw [if_pos hck]
            constructor
            · rintro ⟨m, hm, hcon⟩
              simp at hcon
              subst hcon
              simp [dimErrorMsgs] at hm
            · intro hx
              exact absurd hx hnomis
          · rw [if_neg hck]
            constructor
            · rintro ⟨m, hm, hcon⟩
              simp at hcon
            · intro hx
              exact absurd hx hnomis

/-- Witness for C10: with an uninitialized net the init error is raised
on a concrete input; with `demoNet` and an input cell of size 3 along
dimension 1 (blob width 2), one of the dimension errors is raised by
both `get_features` and `get_gradients`. -/
theorem c10_error_handling_witness :
    (do_get_features Option.none demoBottom (.str "conv1") =
      .error "Initialize caffe first by calling matcaffe_init.") ∧
    (∃ m ∈ dimErrorMsgs,
      do_get_features (some demoNet)
        (.cell [.num ⟨(3, 2, 1, 1), [0, 0, 0, 0, 0, 0]⟩]) (.str "conv1") =
        .error m) ∧
    (∃ m ∈ dimErrorMsgs,
      do_get_gradients (some demoNet)
        (.cell [.num ⟨(3, 2, 1, 1), [0, 0, 0, 0, 0, 0]⟩]) (.str "conv1")
        (.dbl 1 1 [1]) = .error m) := by
  have hnum : ∀ e ∈ [MxValue.num ⟨(3, 2, 1, 1), [0, 0, 0, 0, 0, 0]⟩],
      ∃ a, e = MxValue.num a := by
    intro e he
    rw [List.mem_singleton] at he
    subst he
    exact ⟨_, rfl⟩
  have hmis : ∃ (i : Nat) (a : MxNum) (b : Blob),
      ([MxValue.num ⟨(3, 2, 1, 1), [0, 0, 0, 0, 0, 0]⟩])[i]? = some (.num a) ∧
      demoNet.input_blobs[i]? = some b ∧ ¬ dimCheck a.dims b = .ok () := by
    refine ⟨0, ⟨(3, 2, 1, 1), [0, 0, 0, 0, 0, 0]⟩, demoInBlob, rfl, rfl, ?_⟩
    intro hcon
    simp [dimCheck, demoInBlob] at hcon
  refine ⟨c10_error_handling.1 demoBottom (.str "conv1"), ?_, ?_⟩
  · exact (c10_error_handling.2.2.2.1 demoNet
      [.num ⟨(3, 2, 1, 1), [0, 0, 0, 0, 0, 0]⟩] "conv1" rfl hnum).mpr hmis
  · exact (c10_error_handling.2.2.2.2 demoNet
      [.num ⟨(3, 2, 1, 1), [0, 0, 0, 0, 0, 0]⟩] "conv1" 1 1 [1]
      (by decide) (by decide) rfl hnum).mpr hmis

/-- **C2, counterexample.**  The claim states that every data transfer
between a host array and an engine tensor includes axis-order and
element-order conversion — that the bridge itself reorders elements
rather than transferring the flat element sequence unchanged.  At this
concrete forward call with the pairwise-distinct flat sequence
`[10, 20, 30, 40]`, the element sequence is installed in the engine's
input blob unchanged (`caffe_copy` is a flat copy) and the engine's
output sequence is returned unchanged, so no transfer of this invocation
reorders anything: the claim is false.  (The file's header comment even
instructs the MATLAB caller to do the permutation itself:
`im = permute(im, [2 1 3])`.) -/
theorem c2_counterexample :
    copyForwardInputs [.num ⟨(2, 2, 1, 1), [10, 20, 30, 40]⟩] demoNet.input_blobs =
      .ok [{ demoInBlob with data := [10, 20, 30, 40] }] ∧
    do_forward demoNet demoBottom = .ok [⟨(2, 2, 1, 1), [10, 20, 30, 40]⟩] :=
  ⟨rfl, rfl⟩

/-- **C2, amended.**  No data transfer of the bridge performs axis-order
or element-order conversion: every transfer copies the flat element
sequence unchanged (a prefix copy of `count` elements), the layout
difference being handled only through the declared dimension metadata
`[width, height, channels, num]` and by the MATLAB caller.  Concretely:
the forward input copy installs the cell's flat sequence in the blob
verbatim; the `get_features` / `get_gradients` input copy installs the
`count`-element prefix verbatim; and the outputs of `forward`,
`backward` and `get_features` are the flat `count`-element prefixes of
the engine blobs' `data` / `diff` buffers, in order. -/
theorem c2_flat_transfers :
    (∀ (cells : List MxValue) (blobs filled : List Blob) (i : Nat) (a : MxNum) (b : Blob),
      copyForwardInputs cells blobs = .ok filled →
      cells[i]? = some (.num a) → blobs[i]? = some b →
      filled[i]?.map Blob.data = some a.data) ∧
    (∀ (cells : List MxValue) (blobs filled : List Blob) (i : Nat) (a : MxNum) (b : Blob),
      checkCopyInputs cells blobs = .ok filled →
      cells[i]? = some (.num a) → blobs[i]? = some b →
      filled[i]?.map Blob.data = some (a.data.take b.count)) ∧
    (∀ (net : Net) (cells : List MxValue) (outs : List MxNum),
      do_forward net (.cell cells) = .ok outs →
      ∃ filled, copyForwardInputs cells net.input_blobs = .ok filled ∧
        outs.map MxNum.data =
          (net.forwardPrefilled filled).map fun b => b.data.take b.count) ∧
    (∀ (net : Net) (cells : List MxValue) (outs : List MxNum),
      do_backward net (.cell cells) = .ok outs →
      ∃ filledTops, copyBackwardTops cells net.output_blobs = .ok filledTops ∧
        outs.map MxNum.data =
          (net.backwardRun filledTops).map fun b => b.diff.take b.count) ∧
    (∀ (net : Net) (cells : List MxValue) (lname : String) (outs : List MxNum),
      do_get_features (some net) (.cell cells) (.str lname) = .ok outs →
      ∃ filled fs, checkCopyInputs cells net.input_blobs = .ok filled ∧
        net.getFeaturesPrefilled lname filled = some fs ∧
        outs.map MxNum.data = fs.map fun b => b.data.take b.count) := by
  refine ⟨?_, ?_, ?_, ?_, ?_⟩
  · intro cells blobs filled i a b h ha hb
    rw [(copyForwardInputs_ok_spec cells blobs filled h).2.2 i a b ha hb]
    rfl
  · intro cells blobs filled i a b h ha hb
    rw [((checkCopyInputs_ok_spec cells blobs filled h).2.2 i a b ha hb).2]
    rfl
  · intro net cells outs h
    unfold do_forward at h
    dsimp only [] at h
    by_cases hl : cells.length ≠ net.input_blobs.length
    · rw [if_pos hl] at h; simp at h
    · rw [if_neg hl] at h
      cases hr : copyForwardInputs cells net.input_blobs with
      | error m => rw [hr] at h; simp at h
      | ok filled =>
        rw [hr] at h; simp at h
        refine ⟨filled, rfl, ?_⟩
        rw [← h, List.map_map]
        rfl
  · intro net cells outs h
    unfold do_backward at h
    dsimp only [] at h
    by_cases hl : cells.length ≠ net.output_blobs.length
    · rw [if_pos hl] at h; simp at h
    · rw [if_neg hl] at h
      cases hr : copyBackwardTops cells net.output_blobs with
      | error m => rw [hr] at h; simp at h
      | ok filledTops =>
        rw [hr] at h; simp at h
        refine ⟨filledTops, rfl, ?_⟩
        rw [← h, List.map_map]
        rfl
  · intro net cells lname outs h
    unfold do_get_features at h
    dsimp only [] at h
    by_cases hl : cells.length ≠ net.input_blobs.length
    · rw [if_pos hl] at h; simp at h
    · rw [if_neg hl] at h
      cases hr : checkCopyInputs cells net.input_blobs with
      | error m => rw [hr] at h; simp at h
      | ok filled =>
        rw [hr] at h
        dsimp only [] at h
        cases hf : net.getFeaturesPrefilled lname filled with
        | none => rw [hf] at h; simp at h
        | some fs =>
          rw [hf] at h; simp at h
          refine ⟨filled, fs, rfl, hf, ?_⟩
          rw [← h, List.map_map]
          rfl

/-- Witness for C2 (amended): at the concrete forward invocation of the
counterexample, the installed blob data is exactly the cell's flat
sequence. -/
theorem c2_flat_transfers_witness :
    ([{ demoInBlob with data := ([10, 20, 30, 40] : List Int) }] : List Blob)[0]?.map
      Blob.data = some [10, 20, 30, 40] :=
  c2_flat_transfers.1 [.num ⟨(2, 2, 1, 1), [10, 20, 30, 40]⟩] demoNet.input_blobs
    [{ demoInBlob with data := [10, 20, 30, 40] }] 0
    ⟨(2, 2, 1, 1), [10, 20, 30, 40]⟩ demoInBlob rfl rfl rfl

/-- **C3.** The bridge computes no array values itself: a successful
forward call returns, in cell `i`, a 4-D single-precision array of
dimensions `[width, height, channels, num]` of output blob `i`, whose
element sequence equals exactly the data the engine's `ForwardPrefilled`
produced for that blob (assuming the engine's blobs carry their declared
`count` of elements); symmetrically a successful backward call returns in
cell `i` exactly the diff of input blob `i` after the engine's
`Backward`. -/
theorem c3_results_are_engine_data :
    (∀ (net : Net) (cells : List MxValue) (filled : List Blob) (outs : List MxNum),
      do_forward net (.cell cells) = .ok outs →
      copyForwardInputs cells net.input_blobs = .ok filled →
      (∀ b ∈ net.forwardPrefilled filled, b.data.length = b.count) →
      outs = (net.forwardPrefilled filled).map fun b =>
        ⟨(b.width, b.height, b.channels, b.num), b.data⟩) ∧
    (∀ (net : Net) (cells : List MxValue) (filledTops : List Blob) (outs : List MxNum),
      do_backward net (.cell cells) = .ok outs →
      copyBackwardTops cells net.output_blobs = .ok filledTops →
      (∀ b ∈ net.backwardRun filledTops, b.diff.length = b.count) →
      outs = (net.backwardRun filledTops).map fun b =>
        ⟨(b.width, b.height, b.channels, b.num), b.diff⟩) := by
  constructor
  · intro net cells filled outs hdo hcopy hwf
    unfold do_forward at hdo
    dsimp only [] at hdo
    have hlen := (copyForwardInputs_ok_spec cells net.input_blobs filled hcopy).1
    rw [if_neg (by omega)] at hdo
    rw [hcopy] at hdo
    simp at hdo
    rw [← hdo]
    apply List.map_congr_left
    intro b hb
    have hl2 := hwf b hb
    have : b.data.take b.count = b.data := by rw [← hl2]; exact List.take_length b.data
    rw [this]
  · intro net cells filledTops outs hdo hcopy hwf
    unfold do_backward at hdo
    dsimp only [] at hdo
    have hlen := (copyBackwardTops_ok_spec cells net.output_blobs filledTops hcopy).1
    rw [if_neg (by omega)] at hdo
    rw [hcopy] at hdo
    simp at hdo
    rw [← hdo]
    apply List.map_congr_left
    intro b hb
    have hl2 := hwf b hb
    have : b.diff.take b.count = b.diff := by rw [← hl2]; exact List.take_length b.diff
    rw [this]

/-- Witness for C3: the concrete forward invocation on `demoNet`
satisfies every hypothesis, and the marshalled cell is exactly the
engine's output blob data. -/
theorem c3_results_are_engine_data_witness :
    ([⟨(2, 2, 1, 1), [10, 20, 30, 40]⟩] : List MxNum) =
      (demoNet.forwardPrefilled [{ demoInBlob with data := [10, 20, 30, 40] }]).map
        fun b => ⟨(b.width, b.height, b.channels, b.num), b.data⟩ :=
  c3_results_are_engine_data.1 demoNet [.num ⟨(2, 2, 1, 1), [10, 20, 30, 40]⟩]
    [{ demoInBlob with data := [10, 20, 30, 40] }]
    [⟨(2, 2, 1, 1), [10, 20, 30, 40]⟩] rfl rfl (by decide)

/-- **C9.** `do_get_gradients` converts each supplied channel id `d` (a
double) to an integer by `(int)(d + 0.5)`, which is round-half-up
(`⌊d + 1/2⌋`) for non-negative `d`; it raises
`The channel ids must be greater than zero!` if and only if some supplied
id is strictly negative (an id equal to zero passes the `< 0` test and is
accepted), and raises `Channel list must not be empty.` if and only if
the list of channel ids is empty. -/
theorem c9_channel_id_conversion :
    (∀ ds : List ℚ,
      convertChannelIds ds = .error "The channel ids must be greater than zero!"
        ↔ ∃ d ∈ ds, d < 0) ∧
    (∀ ds : List ℚ,
      convertChannelIds ds = .error "Channel list must not be empty." ↔ ds = []) ∧
    (∀ (ds : List ℚ) (l : List Int),
      convertChannelIds ds = .ok l → l = ds.map fun d => cTrunc (d + 1/2)) ∧
    (∀ d : ℚ, 0 ≤ d → cTrunc (d + 1/2) = ⌊d + 1/2⌋) := by
  refine ⟨fun ds => ?_, fun ds => ?_, fun ds l h => ?_, fun d hd => ?_⟩
  · rw [← convLoop_error_iff]
    unfold convertChannelIds
    cases hr : convLoop ds with
    | ok l =>
      simp only [hr]
      constructor
      · intro h
        by_cases hl : l.length < 1 <;> simp [hl] at h
      · intro h; simp at h
    | error m2 => simp [hr]
  · unfold convertChannelIds
    cases hr : convLoop ds with
    | ok l =>
      simp only [hr]
      have hlen : l.length = ds.length := by
        rw [convLoop_ok_map ds l hr]; simp
      constructor
      · intro h
        by_cases hl : l.length < 1
        · have : ds.length = 0 := by omega
          exact List.length_eq_zero.mp this
        · simp [hl] at h
      · intro h
        subst h
        simp only [List.length_nil] at hlen
        simp [hlen]
    | error m2 =>
      have hm := convLoop_error_msg ds m2 hr
      subst hm
      simp [hr]
      intro h
      subst h
      simp [convLoop] at hr
  · unfold convertChannelIds at h
    cases hr : convLoop ds with
    | ok r =>
      rw [hr] at h
      by_cases hl : r.length < 1 <;> simp [hl] at h
      exact h ▸ convLoop_ok_map ds r hr
    | error m2 => rw [hr] at h; simp at h
  · have h2 : (0 : ℚ) ≤ d + 1/2 := by linarith
    unfold cTrunc
    rw [if_pos h2]

/-- Witness for C9: the id list `[0, 3/2]` has no negative entry and is
not empty, so conversion succeeds and rounds half up (`0 ↦ 0`, `3/2 ↦ 2`);
an explicit non-negative id is converted by `⌊d + 1/2⌋`. -/
theorem c9_channel_id_conversion_witness :
    (convertChannelIds [0, 3/2] = .ok [0, 2] →
      ([0, 2] : List Int) = ([0, 3/2] : List ℚ).map fun d => cTrunc (d + 1/2)) ∧
    (0 : ℚ) ≤ 3/2 ∧ cTrunc ((3:ℚ)/2 + 1/2) = ⌊(3:ℚ)/2 + 1/2⌋ :=
  ⟨c9_channel_id_conversion.2.2.1 [0, 3/2] [0, 2],
   by norm_num,
   c9_channel_id_conversion.2.2.2 (3/2) (by norm_num)⟩

/-- **C5.** For every successful `get_gradients` call (initialized net,
valid layer name, non-empty list of `k` valid channel ids), the result is
a single 4-D single-precision array whose dimensions
`[width, height, channels, k]` are taken from the first gradient blob,
the total number of gradient elements copied into it across all
per-batch blobs (the final `data_copied` counter, enforced by the
trailing `CHECK_EQ`) equals `width*height*channels*k`, and each per-batch
blob contributes `min(its count, its width*height*channels*channels_left)`
elements of its diff, appended in batch order (`channels_left` starting
at `k` and decreasing by `batch_size`, clamped at 0).  The engine-side
assumption is only that each gradient blob carries its declared `count`
of diff elements. -/
theorem c5_gradients_marshaling :
    ∀ (net : Net) (bottom layername channel_ids : MxValue) (res : MxNum)
      (freed : List Blob),
      do_get_gradients (some net) bottom layername channel_ids = .ok (res, freed) →
      (∀ b ∈ freed, b.diff.length = b.count) →
      ∃ (k : Nat) (b0 : Blob) (rest : List Blob),
        (∃ (rows cols : Nat) (ds : List ℚ), channel_ids = .dbl rows cols ds ∧
          k = (ds.take (rows * cols)).length ∧ 1 ≤ k) ∧
        freed = b0 :: rest ∧
        res.dims = (b0.width, b0.height, b0.channels, k) ∧
        res.data = (List.zipWith
            (fun b cl => b.diff.take (min b.count (b.width * b.height * b.channels * cl)))
            freed (channelsLeftSeq net.batchSize k freed.length)).flatten ∧
        (gradAccum net.batchSize k freed).2 =
          b0.width * b0.height * b0.channels * k ∧
        res.data.length = b0.width * b0.height * b0.channels * k := by
  intro net bottom layername channel_ids res freed h hwf
  unfold do_get_gradients at h
  cases layername with
  | str layer_name =>
    cases channel_ids with
    | dbl rows cols ds =>
      dsimp only [] at h
      cases hc : convertChannelIds (ds.take (rows * cols)) with
      | error m => rw [hc] at h; simp at h
      | ok ids =>
        rw [hc] at h
        obtain ⟨hmap, hk⟩ := convertChannelIds_ok_elim _ ids hc
        cases bottom with
        | cell cells =>
          dsimp only [] at h
          by_cases hl : cells.length ≠ net.input_blobs.length
          · rw [if_pos hl] at h; simp at h
          · rw [if_neg hl] at h
            cases hr : checkCopyInputs cells net.input_blobs with
            | error m => rw [hr] at h; simp at h
            | ok filled =>
              rw [hr] at h
              dsimp only [] at h
              cases hg : net.calcGradientsPrefilled layer_name ids filled with
              | none => rw [hg] at h; simp at h
              | some obs =>
                rw [hg] at h
                cases obs with
                | nil => simp at h
                | cons b0 rest =>
                  dsimp only [] at h
                  by_cases hck :
                    (gradAccum net.batchSize ids.length (b0 :: rest)).2 ≠
                      b0.width * b0.height * b0.channels * ids.length
                  · rw [if_pos hck] at h; simp at h
                  · rw [if_neg hck] at h
                    simp at h
                    obtain ⟨hres, hfreed⟩ := h
                    subst hfreed
                    refine ⟨ids.length, b0, rest,
                      ⟨rows, cols, ds, rfl, by rw [hmap]; simp, hk⟩, rfl, ?_, ?_, ?_, ?_⟩
                    · rw [← hres]
                    · rw [← hres]
                      rw [gradAccum_eq_zipWith net.batchSize (b0 :: rest) ids.length]
                    · omega
                    · rw [← hres]
                      rw [gradAccum_length net.batchSize (b0 :: rest) ids.length hwf]
                      omega
        | str s2 => simp at h
        | num a => simp at h
        | dbl r2 c2 l2 => simp at h
    | str s2 => simp at h
    | num a => simp at h
    | cell l2 => simp at h
  | cell l2 => simp at h
  | num a => simp at h
  | dbl r2 c2 l2 => simp at h

/-- Witness for C5: the concrete successful `get_gradients` invocation on
`demoNet` with channel list `[1]`. -/
theorem c5_gradients_marshaling_witness :
    ∃ (k : Nat) (b0 : Blob) (rest : List Blob),
      (∃ (rows cols : Nat) (ds : List ℚ),
        (MxValue.dbl 1 1 [1]) = .dbl rows cols ds ∧
        k = (ds.take (rows * cols)).length ∧ 1 ≤ k) ∧
      [demoGradBlob] = b0 :: rest ∧
      (⟨(1, 1, 1, 1), [77]⟩ : MxNum).dims = (b0.width, b0.height, b0.channels, k) ∧
      (⟨(1, 1, 1, 1), [77]⟩ : MxNum).data = (List.zipWith
          (fun b cl => b.diff.take (min b.count (b.width * b.height * b.channels * cl)))
          [demoGradBlob] (channelsLeftSeq demoNet.batchSize k [demoGradBlob].length)).flatten ∧
      (gradAccum demoNet.batchSize k [demoGradBlob]).2 =
        b0.width * b0.height * b0.channels * k ∧
      (⟨(1, 1, 1, 1), [77]⟩ : MxNum).data.length =
        b0.width * b0.height * b0.channels * k :=
  c5_gradients_marshaling demoNet demoBottom (.str "conv1") (.dbl 1 1 [1])
    ⟨(1, 1, 1, 1), [77]⟩ [demoGradBlob] rfl (by decide)

/-- **C7, counterexample.**  The claim states that no bridge operation
itself deletes or frees an engine tensor (`Blob`) object.  But the
cleanup loop at the end of `do_get_gradients` (lines 239–245) does
`delete (*it)` on every non-null temporary gradient blob, so this
concrete successful `get_gradients` invocation frees one `Blob`: the set
of freed blobs is non-empty, refuting the claim. -/
theorem c7_counterexample :
    (runCmd (demoOracle 1) ⟨some demoNet, 1⟩ .get_gradients
      [demoBottom, .str "conv1", .dbl 1 1 [1]]).freed = [demoGradBlob] ∧
    [demoGradBlob] ≠ ([] : List Blob) :=
  ⟨rfl, by decide⟩

/-- **C7, amended.**  The only bridge operation that deletes engine
tensor objects is `get_gradients`: every other command frees no `Blob`,
and what `get_gradients` deletes on its success path are exactly the
temporary per-batch gradient blobs that the engine's
`CalcGradientsPrefilled` allocated for this call (engine-owned tensors of
the wrapped net are never freed). -/
theorem c7_frees_only_gradient_temporaries :
    (∀ (o : Oracle) (s : BridgeState) (c : Cmd) (args : List MxValue),
      (runCmd o s c args).freed ≠ [] → c = .get_gradients) ∧
    (∀ (net? : Option Net) (bottom layername channel_ids : MxValue) (res : MxNum)
        (freed : List Blob),
      do_get_gradients net? bottom layername channel_ids = .ok (res, freed) →
      ∃ (net : Net) (lname : String) (ids : List Int) (filled : List Blob),
        net? = some net ∧ net.calcGradientsPrefilled lname ids filled = some freed) := by
  constructor
  · intro o s c args h
    cases c
    case get_gradients => rfl
    all_goals exfalso; apply h; unfold runCmd
    case forward =>
      match args with
      | [] => rfl
      | [bottom] =>
        cases s.net with
        | none => rfl
        | some n =>
          dsimp only []
          cases hdf : do_forward n bottom <;> simp [hdf]
      | _ :: _ :: _ => rfl
    case backward =>
      match args with
      | [] => rfl
      | [top_diff] =>
        cases s.net with
        | none => rfl
        | some n =>
          dsimp only []
          cases hdf : do_backward n top_diff <;> simp [hdf]
      | _ :: _ :: _ => rfl
    case get_features =>
      match args with
      | [] => rfl
      | [_] => rfl
      | [bottom, layername] =>
        dsimp only []
        cases hdf : do_get_features s.net bottom layername <;> simp [hdf]
      | _ :: _ :: _ :: _ => rfl
    case init =>
      match args with
      | [] => rfl
      | [_] => rfl
      | [p, m] => cases p <;> cases m <;> rfl
      | _ :: _ :: _ :: _ => rfl
    case is_initialized => rfl
    case set_mode_cpu => rfl
    case set_mode_gpu => rfl
    case set_phase_train => rfl
    case set_phase_test => rfl
    case set_device =>
      match args with
      | [] => rfl
      | [_] => rfl
      | _ :: _ :: _ => rfl
    case get_weights =>
      cases s.net with
      | none => rfl
      | some n =>
        dsimp only []
        cases hdf : do_get_weights n <;> simp [hdf]
    case get_blobs =>
      cases s.net with
      | none => rfl
      | some n => rfl
    case get_init_key => rfl
    case reset => by_cases hn : s.net.isSome <;> simp [hn]
    case read_mean =>
      match args with
      | [] => rfl
      | [_] => rfl
      | _ :: _ :: _ => rfl
  · intro net? bottom layername channel_ids res freed h
    unfold do_get_gradients at h
    cases net? with
    | none => simp at h
    | some net =>
      cases layername with
      | str layer_name =>
        cases channel_ids with
        | dbl rows cols ds =>
          dsimp only [] at h
          cases hc : convertChannelIds (ds.take (rows * cols)) with
          | error m => rw [hc] at h; simp at h
          | ok ids =>
            rw [hc] at h
            cases bottom with
            | cell cells =>
              dsimp only [] at h
              by_cases hl : cells.length ≠ net.input_blobs.length
              · rw [if_pos hl] at h; simp at h
              · rw [if_neg hl] at h
                cases hr : checkCopyInputs cells net.input_blobs with
                | error m => rw [hr] at h; simp at h
                | ok filled =>
                  rw [hr] at h
                  dsimp only [] at h
                  cases hg : net.calcGradientsPrefilled layer_name ids filled with
                  | none => rw [hg] at h; simp at h
                  | some obs =>
                    rw [hg] at h
                    cases obs with
                    | nil => simp at h
                    | cons b0 rest =>
                      dsimp only [] at h
                      by_cases hck :
                        (gradAccum net.batchSize ids.length (b0 :: rest)).2 ≠
                          b0.width * b0.height * b0.channels * ids.length
                      · rw [if_pos hck] at h; simp at h
                      · rw [if_neg hck] at h
                        simp at h
                        exact ⟨net, layer_name, ids, filled, rfl, by rw [hg, h.2]⟩
            | str s2 => simp at h
            | num a => simp at h
            | dbl r2 c2 l2 => simp at h
        | str s2 => simp at h
        | num a => simp at h
        | cell l2 => simp at h
      | cell l2 => simp at h
      | num a => simp at h
      | dbl r2 c2 l2 => simp at h

/-- Witness for C7 (amended): the concrete `get_gradients` invocation of
the counterexample does free blobs, and the theorem identifies the
command and the freed temporaries. -/
theorem c7_frees_only_gradient_temporaries_witness :
    Cmd.get_gradients = Cmd.get_gradients ∧
    ∃ (net : Net) (lname : String) (ids : List Int) (filled : List Blob),
      (some demoNet : Option Net) = some net ∧
      net.calcGradientsPrefilled lname ids filled = some [demoGradBlob] := by
  constructor
  · exact c7_frees_only_gradient_temporaries.1 (demoOracle 1) ⟨some demoNet, 1⟩
      .get_gradients [demoBottom, .str "conv1", .dbl 1 1 [1]]
      (by rw [show (runCmd (demoOracle 1) ⟨some demoNet, 1⟩ .get_gradients
        [demoBottom, .str "conv1", .dbl 1 1 [1]]).freed = [demoGradBlob] from rfl]
          ; decide)
  · exact c7_frees_only_gradient_temporaries.2 (some demoNet) demoBottom
      (.str "conv1") (.dbl 1 1 [1]) ⟨(1, 1, 1, 1), [77]⟩ [demoGradBlob] rfl

theorem weightsLoop_ok_of_chain (ls : List (String × List Blob)) : ∀ prev : String,
    List.Chain' (fun a b => a ≠ b)
      (prev :: ((ls.filter fun l => !l.2.isEmpty).map Prod.fst)) →
    weightsLoop prev ls = .ok ((ls.filter fun l => !l.2.isEmpty).map fun l =>
      ⟨l.2.map fun b => ⟨(b.width, b.height, b.channels, b.num), b.data.take b.count⟩,
       l.1⟩) ∧
    countWeightLayers prev ls = (ls.filter fun l => !l.2.isEmpty).length := by
  induction ls with
  | nil => intro prev _; exact ⟨rfl, rfl⟩
  | cons l ls ih =>
    intro prev hch
    by_cases he : l.2.isEmpty
    · have hfe : (l :: ls).filter (fun l2 => !l2.2.isEmpty) =
          ls.filter fun l2 => !l2.2.isEmpty := by
        simp [List.filter_cons, he]
      rw [hfe] at hch ⊢
      simp only [weightsLoop, countWeightLayers, if_pos he]
      exact ih prev hch
    · have hfe : (l :: ls).filter (fun l2 => !l2.2.isEmpty) =
          l :: (ls.filter fun l2 => !l2.2.isEmpty) := by
        simp [List.filter_cons, he]
      rw [hfe] at hch ⊢
      simp only [List.map_cons, List.chain'_cons] at hch
      obtain ⟨hne, hch2⟩ := hch
      have hih := ih l.1 hch2
      simp only [weightsLoop, countWeightLayers, if_neg he, if_pos (Ne.symm hne),
        hih.1, hih.2]
      exact ⟨rfl, by simp⟩

/-- **C4, counterexample.**  The claim says `get_weights` returns, for
every initialized net, a struct array with one entry per maximal run of
consecutive parameter-bearing layers sharing a layer name.  On
`dupNameNet`, whose two consecutive parameter-bearing layers both carry
the name `A` (one maximal run), `do_get_weights` never returns: for the
second layer the name equals `prev_layer_name`, so `mx_layer_cells`
remains `NULL` and the inner loop calls `mxSetCell(NULL, j, ...)` —
undefined behaviour, modelled as an error.  So no struct array at all is
returned, refuting the claim at this net. -/
theorem c4_counterexample :
    do_get_weights dupNameNet =
      .error "undefined behaviour: mxSetCell on the NULL mx_layer_cells" ∧
    ¬ ∃ es, do_get_weights dupNameNet = Except.ok es := by
  have h1 : do_get_weights dupNameNet =
      .error "undefined behaviour: mxSetCell on the NULL mx_layer_cells" := rfl
  refine ⟨h1, ?_⟩
  rintro ⟨es, h⟩
  rw [h1] at h
  simp at h

/-- **C4, amended.**  For every initialized net in which no two
consecutive parameter-bearing layers share a layer name (consecutive in
the subsequence of layers that have at least one parameter blob —
intervening parameterless layers do not separate runs, because
`prev_layer_name` is not updated on skipped layers — and with the first
such layer's name non-empty, since `prev_layer_name` starts as `""`),
`get_weights` returns a struct array with exactly the fields `weights`
and `layer_names` and one entry per parameter-bearing layer, in order:
the entry's `weights` field is a cell array with one 4-D
single-precision `[width, height, channels, num]` array per parameter
blob of that layer holding that blob's data, and its `layer_names` field
is the layer's name; the Step-1 entry count agrees.  (When consecutive
parameter-bearing layers do share a name, the function instead writes
through a `NULL` cell-array pointer, per the counterexample.) -/
theorem c4_get_weights_amended (net : Net)
    (hch : List.Chain' (fun a b => a ≠ b)
      ("" :: ((net.layers.filter fun l => !l.2.isEmpty).map Prod.fst))) :
    do_get_weights net = .ok ((net.layers.filter fun l => !l.2.isEmpty).map fun l =>
      ⟨l.2.map fun b => ⟨(b.width, b.height, b.channels, b.num), b.data.take b.count⟩,
       l.1⟩) ∧
    countWeightLayers "" net.layers =
      (net.layers.filter fun l => !l.2.isEmpty).length := by
  unfold do_get_weights
  exact weightsLoop_ok_of_chain net.layers "" hch

/-- Witness for C4 (amended): `demoNet` has one parameter-bearing layer
(`conv1`, one 1×1×1×1 blob with data `[5]`) and one parameterless layer,
so `get_weights` yields exactly one entry. -/
theorem c4_get_weights_amended_witness :
    do_get_weights demoNet =
      .ok [⟨[⟨(1, 1, 1, 1), [5]⟩], "conv1"⟩] ∧
    countWeightLayers "" demoNet.layers = 1 := by
  have h := c4_get_weights_amended demoNet (by
    rw [show ((demoNet.layers.filter fun l => !l.2.isEmpty).map Prod.fst) = ["conv1"]
      from rfl]
    simp)
  exact h

theorem runCmd_net_only (o : Oracle) (s s2 : BridgeState) (c : Cmd)
    (args : List MxValue) (hc : c ≠ .get_init_key) (hnet : s.net = s2.net) :
    (runCmd o s c args).out = (runCmd o s2 c args).out ∧
    (runCmd o s c args).freed = (runCmd o s2 c args).freed := by
  cases c
  case get_init_key => exact absurd rfl hc
  case forward =>
    match args with
    | [] => exact ⟨rfl, rfl⟩
    | [bottom] =>
      unfold runCmd
      rw [hnet]
      dsimp only []
      cases s2.net with
      | none => exact ⟨rfl, rfl⟩
      | some n =>
        dsimp only []
        cases do_forward n bottom <;> exact ⟨rfl, rfl⟩
    | _ :: _ :: _ => exact ⟨rfl, rfl⟩
  case backward =>
    match args with
    | [] => exact ⟨rfl, rfl⟩
    | [top_diff] =>
      unfold runCmd
      rw [hnet]
      dsimp only []
      cases s2.net with
      | none => exact ⟨rfl, rfl⟩
      | some n =>
        dsimp only []
        cases do_backward n top_diff <;> exact ⟨rfl, rfl⟩
    | _ :: _ :: _ => exact ⟨rfl, rfl⟩
  case get_gradients =>
    match args with
    | [] => exact ⟨rfl, rfl⟩
    | [_] => exact ⟨rfl, rfl⟩
    | [_, _] => exact ⟨rfl, rfl⟩
    | [bottom, layername, channel_ids] =>
      unfold runCmd
      rw [hnet]
      dsimp only []
      cases do_get_gradients s2.net bottom layername channel_ids <;> exact ⟨rfl, rfl⟩
    | _ :: _ :: _ :: _ :: _ => exact ⟨rfl, rfl⟩
  case get_features =>
    match args with
    | [] => exact ⟨rfl, rfl⟩
    | [_] => exact ⟨rfl, rfl⟩
    | [bottom, layername] =>
      unfold runCmd
      rw [hnet]
      dsimp only []
      cases do_get_features s2.net bottom layername <;> exact ⟨rfl, rfl⟩
    | _ :: _ :: _ :: _ => exact ⟨rfl, rfl⟩
  case init =>
    match args with
    | [] => exact ⟨rfl, rfl⟩
    | [_] => exact ⟨rfl, rfl⟩
    | [p, m] => cases p <;> cases m <;> exact ⟨rfl, rfl⟩
    | _ :: _ :: _ :: _ => exact ⟨rfl, rfl⟩
  case is_initialized =>
    unfold runCmd
    rw [hnet]
    exact ⟨rfl, rfl⟩
  case set_mode_cpu => exact ⟨rfl, rfl⟩
  case set_mode_gpu => exact ⟨rfl, rfl⟩
  case set_phase_train => exact ⟨rfl, rfl⟩
  case set_phase_test => exact ⟨rfl, rfl⟩
  case set_device =>
    match args with
    | [] => exact ⟨rfl, rfl⟩
    | [_] => exact ⟨rfl, rfl⟩
    | _ :: _ :: _ => exact ⟨rfl, rfl⟩
  case get_weights =>
    unfold runCmd
    rw [hnet]
    dsimp only []
    cases s2.net with
    | none => exact ⟨rfl, rfl⟩
    | some n =>
      dsimp only []
      cases do_get_weights n <;> exact ⟨rfl, rfl⟩
  case get_blobs =>
    unfold runCmd
    rw [hnet]
    dsimp only []
    cases s2.net with
    | none => exact ⟨rfl, rfl⟩
    | some n => exact ⟨rfl, rfl⟩
  case reset =>
    unfold runCmd
    rw [hnet]
    dsimp only []
    by_cases hn : s2.net.isSome = true
    · rw [if_pos hn, if_pos hn]
      exact ⟨rfl, rfl⟩
    · rw [if_neg hn, if_neg hn]
      exact ⟨rfl, rfl⟩
  case read_mean =>
    match args with
    | [] => exact ⟨rfl, rfl⟩
    | [_] => exact ⟨rfl, rfl⟩
    | _ :: _ :: _ => exact ⟨rfl, rfl⟩

/-- **C6, counterexample.**  The claim says that, other than the wrapped
network instance itself, no command's observable result depends on
bridge-local mutable state recorded by earlier commands.  But `init_key`
is exactly such state: starting from the load-time state, running
`caffe('init', p, m)` in an environment where `random()` returns 5
versus one where it returns 7 yields two bridge states holding the *same*
network instance, on which `caffe('get_init_key')` returns different
results (5 vs 7).  So the result of `get_init_key` depends on
bridge-local mutable state (`init_key`) recorded by the earlier `init`,
refuting the claim. -/
theorem c6_counterexample :
    ((runCmd (demoOracle 5) ⟨Option.none, -2⟩ .init [.str "p", .str "m"]).state.net =
      (runCmd (demoOracle 7) ⟨Option.none, -2⟩ .init [.str "p", .str "m"]).state.net) ∧
    (runCmd (demoOracle 5)
        (runCmd (demoOracle 5) ⟨Option.none, -2⟩ .init [.str "p", .str "m"]).state
        .get_init_key []).out ≠
      (runCmd (demoOracle 5)
        (runCmd (demoOracle 7) ⟨Option.none, -2⟩ .init [.str "p", .str "m"]).state
        .get_init_key []).out := by
  refine ⟨rfl, ?_⟩
  show (Except.ok (Out.scalar 5) : Except String Out) ≠ Except.ok (Out.scalar 7)
  simp

/-- **C6, amended.**  The bridge's only mutable state besides the wrapped
network handle is the scalar `init_key` (and the mode / phase / device
globals, which live in the wrapped library): for every command other than
`get_init_key`, the observable result (output and freed blobs) depends on
the bridge state only through the network handle, while `get_init_key`'s
result is exactly the stored `init_key` scalar. -/
theorem c6_state_amended :
    (∀ (o : Oracle) (s s2 : BridgeState) (c : Cmd) (args : List MxValue),
      c ≠ .get_init_key → s.net = s2.net →
      (runCmd o s c args).out = (runCmd o s2 c args).out ∧
      (runCmd o s c args).freed = (runCmd o s2 c args).freed) ∧
    (∀ (o : Oracle) (s : BridgeState) (args : List MxValue),
      (runCmd o s .get_init_key args).out = .ok (.scalar s.init_key)) :=
  ⟨fun o s s2 c args hc hnet => runCmd_net_only o s s2 c args hc hnet,
   fun _ _ _ => rfl⟩

/-- Witness for C6 (amended): two states with equal net handle but
different keys give the same `is_initialized` result. -/
theorem c6_state_amended_witness :
    (runCmd (demoOracle 0) ⟨Option.none, 3⟩ .is_initialized []).out =
      (runCmd (demoOracle 0) ⟨Option.none, 9⟩ .is_initialized []).out :=
  (c6_state_amended.1 (demoOracle 0) ⟨Option.none, 3⟩ ⟨Option.none, 9⟩
    .is_initialized [] (by decide) rfl).1

theorem runCmd_state_other (o : Oracle) (s : BridgeState) (c : Cmd)
    (args : List MxValue) (h1 : c ≠ .init) (h2 : c ≠ .reset) :
    (runCmd o s c args).state = s := by
  cases c
  case init => exact absurd rfl h1
  case reset => exact absurd rfl h2
  case forward =>
    match args with
    | [] => rfl
    | [bottom] =>
      unfold runCmd
      dsimp only []
      cases s.net with
      | none => rfl
      | some n =>
        dsimp only []
        cases do_forward n bottom <;> rfl
    | _ :: _ :: _ => rfl
  case backward =>
    match args with
    | [] => rfl
    | [top_diff] =>
      unfold runCmd
      dsimp only []
      cases s.net with
      | none => rfl
      | some n =>
        dsimp only []
        cases do_backward n top_diff <;> rfl
    | _ :: _ :: _ => rfl
  case get_gradients =>
    match args with
    | [] => rfl
    | [_] => rfl
    | [_, _] => rfl
    | [bottom, layername, channel_ids] =>
      unfold runCmd
      dsimp only []
      cases do_get_gradients s.net bottom layername channel_ids <;> rfl
    | _ :: _ :: _ :: _ :: _ => rfl
  case get_features =>
    match args with
    | [] => rfl
    | [_] => rfl
    | [bottom, layername] =>
      unfold runCmd
      dsimp only []
      cases do_get_features s.net bottom layername <;> rfl
    | _ :: _ :: _ :: _ => rfl
  case is_initialized => rfl
  case set_mode_cpu => rfl
  case set_mode_gpu => rfl
  case set_phase_train => rfl
  case set_phase_test => rfl
  case set_device =>
    match args with
    | [] => rfl
    | [_] => rfl
    | _ :: _ :: _ => rfl
  case get_weights =>
    unfold runCmd
    dsimp only []
    cases s.net with
    | none => rfl
    | some n =>
      dsimp only []
      cases do_get_weights n <;> rfl
  case get_blobs =>
    unfold runCmd
    dsimp only []
    cases s.net with
    | none => rfl
    | some n => rfl
  case get_init_key => rfl
  case read_mean =>
    match args with
    | [] => rfl
    | [_] => rfl
    | _ :: _ :: _ => rfl

theorem stepState_claimStep (s : BridgeState) (e : Invocation) :
    ((stepState s e).net.isSome, (stepState s e).init_key) =
      claimStep (s.net.isSome, s.init_key) e := by
  obtain ⟨o, c, args⟩ := e
  cases c
  case init =>
    match args with
    | [] => rfl
    | [p] => cases p <;> rfl
    | [p, m] => cases p <;> cases m <;> rfl
    | p :: m :: x :: rest => cases p <;> cases m <;> rfl
  case reset =>
    show ((runCmd o s .reset args).state.net.isSome,
      (runCmd o s .reset args).state.init_key) = _
    unfold runCmd claimStep
    dsimp only []
    by_cases hn : s.net.isSome = true
    · rw [if_pos hn, if_pos hn]
      rfl
    · rw [if_neg hn, if_neg hn]
  case forward =>
    show ((runCmd o s .forward args).state.net.isSome,
      (runCmd o s .forward args).state.init_key) = _
    rw [runCmd_state_other o s .forward args (by decide) (by decide)]
    rfl
  case backward =>
    show ((runCmd o s .backward args).state.net.isSome,
      (runCmd o s .backward args).state.init_key) = _
    rw [runCmd_state_other o s .backward args (by decide) (by decide)]
    rfl
  case get_gradients =>
    show ((runCmd o s .get_gradients args).state.net.isSome,
      (runCmd o s .get_gradients args).state.init_key) = _
    rw [runCmd_state_other o s .get_gradients args (by decide) (by decide)]
    rfl
  case get_features =>
    show ((runCmd o s .get_features args).state.net.isSome,
      (runCmd o s .get_features args).state.init_key) = _
    rw [runCmd_state_other o s .get_features args (by decide) (by decide)]
    rfl
  case is_initialized =>
    show ((runCmd o s .is_initialized args).state.net.isSome,
      (runCmd o s .is_initialized args).state.init_key) = _
    rw [runCmd_state_other o s .is_initialized args (by decide) (by decide)]
    rfl
  case set_mode_cpu =>
    show ((runCmd o s .set_mode_cpu args).state.net.isSome,
      (runCmd o s .set_mode_cpu args).state.init_key) = _
    rw [runCmd_state_other o s .set_mode_cpu args (by decide) (by decide)]
    rfl
  case set_mode_gpu =>
    show ((runCmd o s .set_mode_gpu args).state.net.isSome,
      (runCmd o s .set_mode_gpu args).state.init_key) = _
    rw [runCmd_state_other o s .set_mode_gpu args (by decide) (by decide)]
    rfl
  case set_phase_train =>
    show ((runCmd o s .set_phase_train args).state.net.isSome,
      (runCmd o s .set_phase_train args).state.init_key) = _
    rw [runCmd_state_other o s .set_phase_train args (by decide) (by decide)]
    rfl
  case set_phase_test =>
    show ((runCmd o s .set_phase_test args).state.net.isSome,
      (runCmd o s .set_phase_test args).state.init_key) = _
    rw [runCmd_state_other o s .set_phase_test args (by decide) (by decide)]
    rfl
  case set_device =>
    show ((runCmd o s .set_device args).state.net.isSome,
      (runCmd o s .set_device args).state.init_key) = _
    rw [runCmd_state_other o s .set_device args (by decide) (by decide)]
    rfl
  case get_weights =>
    show ((runCmd o s .get_weights args).state.net.isSome,
      (runCmd o s .get_weights args).state.init_key) = _
    rw [runCmd_state_other o s .get_weights args (by decide) (by decide)]
    rfl
  case get_blobs =>
    show ((runCmd o s .get_blobs args).state.net.isSome,
      (runCmd o s .get_blobs args).state.init_key) = _
    rw [runCmd_state_other o s .get_blobs args (by decide) (by decide)]
    rfl
  case get_init_key =>
    show ((runCmd o s .get_init_key args).state.net.isSome,
      (runCmd o s .get_init_key args).state.init_key) = _
    rw [runCmd_state_other o s .get_init_key args (by decide) (by decide)]
    rfl
  case read_mean =>
    show ((runCmd o s .read_mean args).state.net.isSome,
      (runCmd o s .read_mean args).state.init_key) = _
    rw [runCmd_state_other o s .read_mean args (by decide) (by decide)]
    rfl

theorem foldl_claimStep_correspond (tr : List Invocation) : ∀ s : BridgeState,
    ((tr.foldl stepState s).net.isSome, (tr.foldl stepState s).init_key) =
      tr.foldl claimStep (s.net.isSome, s.init_key) := by
  induction tr with
  | nil => intro s; rfl
  | cons e tr ih =>
    intro s
    simp only [List.foldl_cons]
    rw [ih (stepState s e), stepState_claimStep s e]

theorem claimStep_inv (tr : List Invocation) : ∀ st : Bool × Int,
    (st.1 = false → st.2 = -2) →
    (tr.foldl claimStep st).1 = false → (tr.foldl claimStep st).2 = -2 := by
  induction tr with
  | nil => intro st h; exact h
  | cons e tr ih =>
    intro st h
    simp only [List.foldl_cons]
    apply ih
    obtain ⟨o, c, args⟩ := e
    obtain ⟨b, k⟩ := st
    cases c
    case init =>
      match args with
      | [] => exact h
      | [p] => cases p <;> exact h
      | [p, m] =>
        cases p <;> cases m <;> first
          | exact h
          | (intro hcon; simp [claimStep] at hcon)
      | p :: m :: x :: rest => cases p <;> cases m <;> exact h
    case reset =>
      cases b with
      | true =>
        intro _
        rfl
      | false =>
        intro _
        exact h rfl
    all_goals exact h

/-- **C8.** In every reachable bridge state, the pair
(handle set?, `init_key`) is exactly what the claim's state machine
prescribes: the handle is set if and only if a successful `init` has
occurred since the last `reset`, in which case the key is the one that
init's `random()` generated, and otherwise (initially and after every
reset) the key is `-2`.  `is_initialized` returns 1 exactly when the
handle is set and 0 otherwise; `get_init_key` returns the stored key, so
it returns `-2` whenever the handle is not set and, after a successful
init, the key that init generated. -/
theorem c8_init_state_machine :
    (∀ tr : List Invocation,
      ((runTrace tr).net.isSome, (runTrace tr).init_key) = specMachine tr) ∧
    (∀ (o : Oracle) (s : BridgeState) (args : List MxValue),
      (runCmd o s .is_initialized args).out =
        .ok (.scalar (if s.net.isSome then 1 else 0))) ∧
    (∀ (o : Oracle) (s : BridgeState) (args : List MxValue),
      (runCmd o s .get_init_key args).out = .ok (.scalar s.init_key)) ∧
    (∀ (o : Oracle) (s : BridgeState) (p m : String),
      (runCmd o s .init [.str p, .str m]).state =
        ⟨some (o.loadNet p m), o.rand⟩ ∧
      (runCmd o s .init [.str p, .str m]).out = .ok (.scalar o.rand)) ∧
    (∀ tr : List Invocation, (runTrace tr).net = Option.none →
      (runTrace tr).init_key = -2) := by
  refine ⟨fun tr => foldl_claimStep_correspond tr ⟨Option.none, -2⟩,
    fun o s args => rfl, fun o s args => rfl, fun o s p m => ⟨rfl, rfl⟩,
    fun tr hnone => ?_⟩
  have hcor := foldl_claimStep_correspond tr ⟨Option.none, -2⟩
  have hfst := congrArg Prod.fst hcor
  have hsnd := congrArg Prod.snd hcor
  simp only [Option.isSome_none] at hfst hsnd
  have hf : (tr.foldl claimStep (false, -2)).1 = false := by
    rw [← hfst]
    show (runTrace tr).net.isSome = false
    rw [hnone]
    rfl
  have := claimStep_inv tr (false, -2) (fun _ => rfl) hf
  rw [← this]
  exact hsnd

/-- Witness for C8: the load-time state (empty trace) has no handle and
key `-2`. -/
theorem c8_init_state_machine_witness :
    (runTrace []).net = Option.none ∧ (runTrace []).init_key = -2 :=
  ⟨rfl, c8_init_state_machine.2.2.2.2 [] rfl⟩

end MatCaffe
